import Mathlib

/-!
Verification development for the clinical multi-agent orchestration system.

The Python source is shallowly embedded: Python `float` values that only
need ordering/comparison are modelled as `ℚ`; Python strings are modelled
as `String` (or `List Char` where character-level scanning matters);
fallible code returns `Except String`; the external LLM backend is
modelled by explicitly supplied responses, and the composite
"extract JSON + pydantic construction" step of each agent is modelled by
a parse oracle whose output is filtered through the pydantic field
constraints transcribed from `schemas.py`.
-/

/-! ### Catalog (`src/catalog.py`) -/

/-- The `Literal["generalist", "medical", "surgical"]` category of a specialty. -/
inductive SpecialtyType where
  | generalist
  | medical
  | surgical
deriving DecidableEq, Repr

/-- A medical specialty with metadata for relevance scoring (`catalog.Specialty`). -/
structure Specialty where
  id : String
  display_name : String
  type : SpecialtyType
  emergency_weight : ℚ
  pediatric_weight : ℚ
  adult_weight : ℚ
  procedural_signal : ℚ
  keywords : List String
deriving DecidableEq, Repr

/-- The fixed specialty catalog (`catalog.SPECIALTY_CATALOG`), transcribed entry by entry. -/
def SPECIALTY_CATALOG : List Specialty := [
  { id := "emergency_medicine", display_name := "Emergency Medicine", type := .generalist,
    emergency_weight := 1.0, pediatric_weight := 0.7, adult_weight := 0.9, procedural_signal := 0.3,
    keywords := ["acute", "emergency", "trauma", "unstable", "shock", "syncope",
      "chest pain", "stroke", "seizure", "overdose", "critical"] },
  { id := "pediatrics", display_name := "Pediatrics", type := .generalist,
    emergency_weight := 0.6, pediatric_weight := 1.0, adult_weight := 0.0, procedural_signal := 0.1,
    keywords := ["child", "infant", "newborn", "adolescent", "pediatric",
      "congenital", "developmental", "vaccination", "growth"] },
  { id := "family_internal_medicine", display_name := "Family/Internal Medicine", type := .generalist,
    emergency_weight := 0.4, pediatric_weight := 0.5, adult_weight := 1.0, procedural_signal := 0.1,
    keywords := ["chronic", "primary care", "preventive", "screening",
      "hypertension", "diabetes", "hyperlipidemia", "wellness"] },
  { id := "neurology", display_name := "Neurology", type := .medical,
    emergency_weight := 0.7, pediatric_weight := 0.6, adult_weight := 0.9, procedural_signal := 0.2,
    keywords := ["headache", "seizure", "stroke", "weakness", "numbness",
      "tremor", "dementia", "multiple sclerosis", "parkinson",
      "neuropathy", "altered mental status", "coma"] },
  { id := "psychiatry", display_name := "Psychiatry", type := .medical,
    emergency_weight := 0.5, pediatric_weight := 0.6, adult_weight := 0.9, procedural_signal := 0.0,
    keywords := ["depression", "anxiety", "psychosis", "bipolar", "schizophrenia",
      "suicidal", "mania", "delusions", "hallucinations", "behavior"] },
  { id := "dermatology", display_name := "Dermatology", type := .medical,
    emergency_weight := 0.2, pediatric_weight := 0.6, adult_weight := 0.8, procedural_signal := 0.3,
    keywords := ["rash", "skin", "lesion", "pruritus", "acne", "melanoma",
      "psoriasis", "eczema", "dermatitis", "urticaria", "biopsy"] },
  { id := "ophthalmology", display_name := "Ophthalmology", type := .medical,
    emergency_weight := 0.3, pediatric_weight := 0.5, adult_weight := 0.8, procedural_signal := 0.5,
    keywords := ["vision", "eye", "blindness", "glaucoma", "cataract",
      "retina", "diplopia", "visual loss", "red eye"] },
  { id := "ent", display_name := "Otolaryngology (ENT)", type := .medical,
    emergency_weight := 0.3, pediatric_weight := 0.7, adult_weight := 0.7, procedural_signal := 0.6,
    keywords := ["ear", "nose", "throat", "hearing loss", "tinnitus",
      "sinusitis", "vertigo", "dysphagia", "hoarseness"] },
  { id := "obgyn", display_name := "Obstetrics & Gynecology", type := .medical,
    emergency_weight := 0.5, pediatric_weight := 0.0, adult_weight := 0.9, procedural_signal := 0.7,
    keywords := ["pregnancy", "vaginal bleeding", "pelvic pain", "menstrual",
      "prenatal", "labor", "delivery", "menopause", "ovarian"] },
  { id := "cardiology", display_name := "Cardiology", type := .medical,
    emergency_weight := 0.8, pediatric_weight := 0.4, adult_weight := 1.0, procedural_signal := 0.4,
    keywords := ["chest pain", "MI", "heart failure", "arrhythmia", "hypertension",
      "angina", "palpitations", "dyspnea", "edema", "CAD"] },
  { id := "endocrinology", display_name := "Endocrinology", type := .medical,
    emergency_weight := 0.5, pediatric_weight := 0.6, adult_weight := 0.9, procedural_signal := 0.1,
    keywords := ["diabetes", "thyroid", "hyperglycemia", "hypoglycemia",
      "adrenal", "pituitary", "hyperthyroid", "hypothyroid", "DKA"] },
  { id := "gastroenterology", display_name := "Gastroenterology", type := .medical,
    emergency_weight := 0.6, pediatric_weight := 0.5, adult_weight := 0.9, procedural_signal := 0.4,
    keywords := ["abdominal pain", "GI bleed", "diarrhea", "constipation",
      "IBD", "cirrhosis", "hepatitis", "pancreatitis", "GERD"] },
  { id := "hematology", display_name := "Hematology", type := .medical,
    emergency_weight := 0.6, pediatric_weight := 0.6, adult_weight := 0.9, procedural_signal := 0.2,
    keywords := ["anemia", "bleeding", "thrombosis", "leukemia", "lymphoma",
      "coagulation", "DVT", "PE", "thrombocytopenia"] },
  { id := "infectious_disease", display_name := "Infectious Disease", type := .medical,
    emergency_weight := 0.7, pediatric_weight := 0.7, adult_weight := 0.9, procedural_signal := 0.1,
    keywords := ["fever", "infection", "sepsis", "HIV", "tuberculosis",
      "meningitis", "pneumonia", "abscess", "bacteremia"] },
  { id := "nephrology", display_name := "Nephrology", type := .medical,
    emergency_weight := 0.6, pediatric_weight := 0.5, adult_weight := 0.9, procedural_signal := 0.3,
    keywords := ["renal failure", "dialysis", "hematuria", "proteinuria",
      "AKI", "CKD", "electrolyte", "hypertension", "edema"] },
  { id := "oncology", display_name := "Oncology", type := .medical,
    emergency_weight := 0.5, pediatric_weight := 0.5, adult_weight := 0.9, procedural_signal := 0.3,
    keywords := ["cancer", "tumor", "malignancy", "chemotherapy", "radiation",
      "metastasis", "lymphoma", "carcinoma", "mass"] },
  { id := "pulmonology", display_name := "Pulmonology", type := .medical,
    emergency_weight := 0.7, pediatric_weight := 0.6, adult_weight := 0.9, procedural_signal := 0.3,
    keywords := ["dyspnea", "cough", "COPD", "asthma", "pneumonia",
      "respiratory failure", "PE", "pleural effusion", "hypoxia"] },
  { id := "rheumatology", display_name := "Rheumatology", type := .medical,
    emergency_weight := 0.3, pediatric_weight := 0.5, adult_weight := 0.9, procedural_signal := 0.2,
    keywords := ["arthritis", "joint pain", "autoimmune", "lupus", "RA",
      "gout", "vasculitis", "connective tissue", "inflammatory"] },
  { id := "geriatrics", display_name := "Geriatrics", type := .medical,
    emergency_weight := 0.5, pediatric_weight := 0.0, adult_weight := 1.0, procedural_signal := 0.1,
    keywords := ["elderly", "dementia", "fall", "frailty", "polypharmacy",
      "delirium", "geriatric", "aging"] },
  { id := "allergy_immunology", display_name := "Allergy & Immunology", type := .medical,
    emergency_weight := 0.5, pediatric_weight := 0.7, adult_weight := 0.7, procedural_signal := 0.1,
    keywords := ["allergy", "anaphylaxis", "asthma", "immunodeficiency",
      "urticaria", "angioedema", "allergic reaction"] },
  { id := "sleep_medicine", display_name := "Sleep Medicine", type := .medical,
    emergency_weight := 0.2, pediatric_weight := 0.5, adult_weight := 0.8, procedural_signal := 0.1,
    keywords := ["insomnia", "sleep apnea", "narcolepsy", "fatigue",
      "snoring", "hypersomnia"] },
  { id := "urology", display_name := "Urology", type := .medical,
    emergency_weight := 0.5, pediatric_weight := 0.4, adult_weight := 0.9, procedural_signal := 0.7,
    keywords := ["urinary", "hematuria", "kidney stone", "prostate", "UTI",
      "incontinence", "retention", "dysuria", "testicular"] },
  { id := "sports_medicine", display_name := "Sports Medicine", type := .medical,
    emergency_weight := 0.3, pediatric_weight := 0.6, adult_weight := 0.7, procedural_signal := 0.4,
    keywords := ["sports injury", "ACL", "concussion", "fracture",
      "sprain", "strain", "athletic"] },
  { id := "general_surgery", display_name := "General Surgery", type := .surgical,
    emergency_weight := 0.7, pediatric_weight := 0.5, adult_weight := 0.9, procedural_signal := 1.0,
    keywords := ["appendicitis", "cholecystitis", "hernia", "bowel obstruction",
      "acute abdomen", "peritonitis", "surgical abdomen"] },
  { id := "orthopedic_surgery", display_name := "Orthopedic Surgery", type := .surgical,
    emergency_weight := 0.6, pediatric_weight := 0.6, adult_weight := 0.9, procedural_signal := 0.9,
    keywords := ["fracture", "dislocation", "joint pain", "back pain",
      "trauma", "bone", "ligament", "tendon"] },
  { id := "vascular_surgery", display_name := "Vascular Surgery", type := .surgical,
    emergency_weight := 0.8, pediatric_weight := 0.2, adult_weight := 1.0, procedural_signal := 0.9,
    keywords := ["aneurysm", "claudication", "ischemia", "vascular",
      "arterial", "venous", "AAA", "peripheral vascular"] },
  { id := "plastic_surgery", display_name := "Plastic Surgery", type := .surgical,
    emergency_weight := 0.3, pediatric_weight := 0.5, adult_weight := 0.8, procedural_signal := 1.0,
    keywords := ["reconstruction", "burn", "laceration", "cosmetic",
      "hand surgery", "facial trauma"] },
  { id := "thoracic_surgery", display_name := "Thoracic Surgery", type := .surgical,
    emergency_weight := 0.7, pediatric_weight := 0.3, adult_weight := 0.9, procedural_signal := 1.0,
    keywords := ["lung cancer", "esophageal", "mediastinal", "chest trauma",
      "pneumothorax", "empyema"] }
]

/-- `catalog.get_catalog`: return the complete specialty catalog. -/
def get_catalog : List Specialty := SPECIALTY_CATALOG

/-- `catalog.get_specialty_by_id`: first catalog entry with the given id, else `none`. -/
def get_specialty_by_id (specialty_id : String) : Option Specialty :=
  SPECIALTY_CATALOG.find? (fun spec => spec.id = specialty_id)

/-- `catalog.get_specialty_ids`: all specialty IDs. -/
def get_specialty_ids : List String :=
  SPECIALTY_CATALOG.map (fun spec => spec.id)

/-- `catalog.validate_specialty_ids`: `(is ok, invalid ids)`; an id is invalid when it is
not among the catalog ids. -/
def validate_specialty_ids (ids : List String) : Bool × List String :=
  let valid_ids := get_specialty_ids
  let invalid := ids.filter (fun sid => !(valid_ids.contains sid))
  (invalid.isEmpty, invalid)

/-! ### Configuration (`src/config.py`)

Only the configuration fields the modelled control flow reads are carried.
Python `int` budget fields are modelled as `ℕ` (their configured values are
non-negative counts). -/

/-- `config.BudgetConfig` (defaults 10 / 5 / 1 / 30). -/
structure BudgetConfig where
  max_agents_total : ℕ := 10
  max_specialists : ℕ := 5
  max_retries : ℕ := 1
  timeout_seconds : ℕ := 30
deriving DecidableEq, Repr

/-- `config.PlannerConfig` (the keyword lists only feed prompt text). -/
structure PlannerConfig where
  top_k : ℕ := 5
  allow_generalist : Bool := true
deriving DecidableEq, Repr

/-- `config.Config`, restricted to the fields read by the modelled agents. -/
structure Config where
  budgets : BudgetConfig := {}
  planner : PlannerConfig := {}
deriving DecidableEq, Repr

/-! ### LLM client (`src/llm_client.py`) -/

/-- `llm_client.LLMResponse`: a standardized model response. -/
structure LLMResponse where
  content : String
  model : String := ""
  tokens_used : Option ℕ := none
  latency_seconds : ℚ := 0
deriving DecidableEq, Repr

/-! ### Schemas (`src/schemas.py`)

Each pydantic model is a plain structure paired with a Boolean validity
predicate transcribing its `Field` constraints and `field_validator`s;
construction from parsed JSON succeeds exactly when the predicate holds. -/

/-- `schemas.ScoredSpecialty`. -/
structure ScoredSpecialty where
  specialty_id : String
  relevance : ℚ
  coverage_gain : ℚ
  urgency_alignment : ℚ
  procedural_signal : ℚ
  reason : String := ""
deriving DecidableEq, Repr

/-- Field constraints of `ScoredSpecialty`: the four scores lie in `[0, 1]`. -/
def scoredSpecialtyValid (s : ScoredSpecialty) : Bool :=
  decide (0 ≤ s.relevance ∧ s.relevance ≤ 1) &&
  decide (0 ≤ s.coverage_gain ∧ s.coverage_gain ≤ 1) &&
  decide (0 ≤ s.urgency_alignment ∧ s.urgency_alignment ≤ 1) &&
  decide (0 ≤ s.procedural_signal ∧ s.procedural_signal ≤ 1)

/-- `schemas.PlannerResult`. -/
structure PlannerResult where
  triage_generalist : String
  scored_catalog : List ScoredSpecialty
  selected_specialties : List String
  rationale : String := ""
deriving DecidableEq, Repr

/-- Field constraints and `validate_selected_count` of `PlannerResult`:
`triage_generalist` is one of the three generalist literals, every scored entry
is valid, and between 1 and 5 specialties are selected. -/
def plannerResultValid (r : PlannerResult) : Bool :=
  ["emergency_medicine", "pediatrics", "family_internal_medicine"].contains r.triage_generalist &&
  r.scored_catalog.all scoredSpecialtyValid &&
  decide (1 ≤ r.selected_specialties.length ∧ r.selected_specialties.length ≤ 5)

/-- `schemas.DifferentialItem`. -/
structure DifferentialItem where
  dx : String
  p : ℚ
  evidence_for : List String := []
  evidence_against : List String := []
  discriminators : List String := []
deriving DecidableEq, Repr

/-- Field constraint of `DifferentialItem`: `p ∈ [0, 1]`. -/
def differentialItemValid (d : DifferentialItem) : Bool :=
  decide (0 ≤ d.p ∧ d.p ≤ 1)

/-- `schemas.SpecialistReport`. -/
structure SpecialistReport where
  specialty_id : String
  differential : List DifferentialItem
  notes : String := ""
deriving DecidableEq, Repr

/-- Sum of the probabilities of a differential list. -/
def differentialSumP (l : List DifferentialItem) : ℚ :=
  (l.map (fun item => item.p)).sum

/-- Field constraints and `validate_differential` of `SpecialistReport`:
each item valid, between 1 and 3 items, probabilities summing to at most `1.01`. -/
def specialistReportValid (r : SpecialistReport) : Bool :=
  r.differential.all differentialItemValid &&
  decide (1 ≤ r.differential.length ∧ r.differential.length ≤ 3) &&
  decide (differentialSumP r.differential ≤ 1.01)

/-- `schemas.FinalDecision`. -/
structure FinalDecision where
  final_answer : String
  ordered_differential : List DifferentialItem
  justification : String
  warnings : List String := []
deriving DecidableEq, Repr

/-- Field constraint of `FinalDecision`: every merged differential item is valid. -/
def finalDecisionValid (d : FinalDecision) : Bool :=
  d.ordered_differential.all differentialItemValid

/-! ### Planner (`src/planner.py`)

`run_planner` makes at most two LLM calls (the primary call and the one
corrective retry), so the backend is modelled by the two responses
`resp1`/`resp2` it would return, and the composite
`_extract_json` + `PlannerResult(**dict)` step by the oracle `pparse`
filtered through the pydantic constraints. -/

/-- Parsing a planner response: JSON extraction/`PlannerResult` construction
(`planner.py` lines 69-73); `JSONDecodeError` and pydantic `ValueError` are
caught together, so an invalid construction behaves like a failed parse. -/
def parsePlannerResponse (pparse : String → Option PlannerResult) (content : String) :
    Option PlannerResult :=
  match pparse content with
  | some r => if plannerResultValid r then some r else none
  | none => none

/-- Stable descending insertion by `relevance`, modelling Python's stable
`sorted(..., key=lambda x: x.relevance, reverse=True)`. -/
def insertByRelevanceDesc (x : ScoredSpecialty) : List ScoredSpecialty → List ScoredSpecialty
  | [] => [x]
  | y :: ys => if y.relevance ≤ x.relevance then x :: y :: ys else y :: insertByRelevanceDesc x ys

/-- Stable descending sort by `relevance` (`sorted(..., reverse=True)` in the
planner fallback). -/
def sortByRelevanceDesc : List ScoredSpecialty → List ScoredSpecialty
  | [] => []
  | x :: xs => insertByRelevanceDesc x (sortByRelevanceDesc xs)

/-- The planner fallback (`planner.py` lines 92-110): filter out the invalid ids,
backfill from the highest-scored valid remaining scored-catalog entries up to
`top_k`, and assign the truncated list back onto the result (a plain attribute
assignment, not re-validated by pydantic). -/
def plannerFallback (config : Config) (planner_result : PlannerResult)
    (invalid_ids : List String) : PlannerResult :=
  let valid_selections :=
    planner_result.selected_specialties.filter (fun sid => !(invalid_ids.contains sid))
  let valid_selections :=
    if valid_selections.length < config.planner.top_k then
      let all_valid_ids := get_specialty_ids
      let available_ids :=
        (planner_result.scored_catalog.map (fun s => s.specialty_id)).filter
          (fun sid => all_valid_ids.contains sid && !(valid_selections.contains sid))
      let available_sorted :=
        sortByRelevanceDesc
          (planner_result.scored_catalog.filter (fun s => available_ids.contains s.specialty_id))
      let needed := config.planner.top_k - valid_selections.length
      valid_selections ++ (available_sorted.take needed).map (fun s => s.specialty_id)
    else valid_selections
  { planner_result with selected_specialties := valid_selections.take config.planner.top_k }

/-- Scored-catalog validation (`planner.py` lines 115-123): filter out scored
entries whose id is not in the catalog. -/
def filterScoredCatalog (planner_result : PlannerResult) : PlannerResult :=
  let scored_ids := planner_result.scored_catalog.map (fun s => s.specialty_id)
  let v := validate_specialty_ids scored_ids
  if v.1 then planner_result
  else
    { planner_result with
        scored_catalog :=
          planner_result.scored_catalog.filter (fun s => !(v.2.contains s.specialty_id)) }

/-- `planner._retry_planner_with_correction`: parse the corrective response and
fail unless its selected ids validate. -/
def retry_planner_with_correction (pparse : String → Option PlannerResult)
    (resp2 : LLMResponse) : Except String (PlannerResult × LLMResponse) :=
  match parsePlannerResponse pparse resp2.content with
  | none => .error "Failed to parse planner response after retry"
  | some planner_result =>
    if (validate_specialty_ids planner_result.selected_specialties).1 then
      .ok (planner_result, resp2)
    else .error "Planner still selected invalid specialty IDs after retry"

/-- `planner.run_planner`: parse, validate selected ids, retry once with a
correction prompt when retries are enabled, locally repair via
`plannerFallback` when the retry also fails, and finally filter the scored
catalog (the successful-retry path returns before that filter). -/
def run_planner (config : Config) (pparse : String → Option PlannerResult)
    (resp1 resp2 : LLMResponse) : Except String (PlannerResult × LLMResponse) :=
  match parsePlannerResponse pparse resp1.content with
  | none => .error "Failed to parse planner response"
  | some planner_result =>
    let v := validate_specialty_ids planner_result.selected_specialties
    if v.1 then
      .ok (filterScoredCatalog planner_result, resp1)
    else
      if 0 < config.budgets.max_retries then
        match retry_planner_with_correction pparse resp2 with
        | .ok res => .ok res
        | .error _ => .ok (filterScoredCatalog (plannerFallback config planner_result v.2), resp1)
      else .error "Planner selected invalid specialty IDs"

/-! ### Specialists (`src/specialists.py`) -/

/-- Parsing a specialist response: JSON extraction/`SpecialistReport`
construction, with the pydantic constraints of `SpecialistReport`. -/
def parseSpecialistResponse (sparse : String → Option SpecialistReport) (content : String) :
    Option SpecialistReport :=
  match sparse content with
  | some r => if specialistReportValid r then some r else none
  | none => none

/-- `specialists._retry_specialist_with_fix`: parse the fix-JSON response and
force the requested `specialty_id` onto the parsed report. -/
def retry_specialist_with_fix (sparse : String → Option SpecialistReport)
    (specialty_id : String) (resp2 : LLMResponse) :
    Except String (SpecialistReport × LLMResponse) :=
  match parseSpecialistResponse sparse resp2.content with
  | some specialist_report =>
    .ok ({ specialist_report with specialty_id := specialty_id }, resp2)
  | none => .error ("Failed to parse specialist (" ++ specialty_id ++ ") response after retry")

/-- `specialists.run_specialist`: reject ids missing from the catalog, parse the
response (one corrective retry when enabled), and overwrite a mismatched
`specialty_id` with the requested one. -/
def run_specialist (config : Config) (sparse : String → Option SpecialistReport)
    (resp1 resp2 : LLMResponse) (specialty_id : String) (retry : Bool := true) :
    Except String (SpecialistReport × LLMResponse) :=
  match get_specialty_by_id specialty_id with
  | none => .error ("Invalid specialty ID: " ++ specialty_id)
  | some _ =>
    match parseSpecialistResponse sparse resp1.content with
    | some specialist_report =>
      let specialist_report :=
        if specialist_report.specialty_id ≠ specialty_id then
          { specialist_report with specialty_id := specialty_id }
        else specialist_report
      .ok (specialist_report, resp1)
    | none =>
      if retry && 0 < config.budgets.max_retries then
        retry_specialist_with_fix sparse specialty_id resp2
      else .error ("Failed to parse specialist (" ++ specialty_id ++ ") response")

/-- The consultation loop of `specialists.run_specialists`: one `consult` call
per selected id (the `i`-th consultation overall is `consult i`), appending
successes and skipping failures. -/
def specialistsLoop (consult : ℕ → String → Except String (SpecialistReport × LLMResponse))
    (i : ℕ) : List String → List (SpecialistReport × LLMResponse)
  | [] => []
  | specialty_id :: rest =>
    match consult i specialty_id with
    | .ok r => r :: specialistsLoop consult (i + 1) rest
    | .error _ => specialistsLoop consult (i + 1) rest

/-- `specialists.run_specialists`: run every consultation, tolerate individual
failures, and raise only when no consultation succeeded. Each individual
`run_specialist` call (with whatever responses the backend produces for it) is
abstracted as the outcome `consult i specialty_id`. -/
def run_specialists (consult : ℕ → String → Except String (SpecialistReport × LLMResponse))
    (selected_specialties : List String) :
    Except String (List (SpecialistReport × LLMResponse)) :=
  let results := specialistsLoop consult 0 selected_specialties
  if results.isEmpty then .error "All specialist consultations failed" else .ok results

/-! ### Aggregator (`src/aggregator.py`) -/

/-- Parsing an aggregator response: JSON extraction/`FinalDecision`
construction, with the pydantic constraints of `FinalDecision`. -/
def parseAggregatorResponse (aparse : String → Option FinalDecision) (content : String) :
    Option FinalDecision :=
  match aparse content with
  | some d => if finalDecisionValid d then some d else none
  | none => none

/-- `aggregator.run_aggregator`: reject an empty report list, parse the
response, and retry once with a fix-JSON prompt when retries are enabled. -/
def run_aggregator (config : Config) (aparse : String → Option FinalDecision)
    (resp1 resp2 : LLMResponse) (specialist_reports : List SpecialistReport)
    (retry : Bool := true) : Except String (FinalDecision × LLMResponse) :=
  if specialist_reports.isEmpty then .error "No specialist reports provided to aggregator"
  else
    match parseAggregatorResponse aparse resp1.content with
    | some final_decision => .ok (final_decision, resp1)
    | none =>
      if retry && 0 < config.budgets.max_retries then
        match parseAggregatorResponse aparse resp2.content with
        | some final_decision => .ok (final_decision, resp2)
        | none => .error "Failed to parse aggregator response after retry"
      else .error "Failed to parse aggregator response"

/-! ### Orchestration (`src/orchestration.py`)

Wall-clock timestamps, latencies measured with `time.time()` and the random
`uuid4` trace id are not statable in a pure embedding; the corresponding
`AgentTrace`/`CaseTrace` fields are either omitted or carried through from the
supplied responses. Everything that feeds the claims (the trace lists, token
accounting, predicted answer and correctness flag) is modelled. -/

/-- The `Literal["planner", "specialist", "aggregator"]` agent tag. -/
inductive AgentType where
  | planner
  | specialist
  | aggregator
deriving DecidableEq, Repr

/-- `schemas.AgentTrace`, restricted to the statable fields. -/
structure AgentTrace where
  agent_type : AgentType
  specialty_id : Option String := none
  model : String := ""
  tokens_used : Option ℕ := none
deriving DecidableEq, Repr

/-- `schemas.CaseTrace`, restricted to the statable fields. -/
structure CaseTrace where
  question : String
  options : Option (List String)
  planner_trace : AgentTrace
  specialist_traces : List AgentTrace
  aggregator_trace : AgentTrace
  final_decision : FinalDecision
  total_tokens : Option ℕ
  correct_answer : Option String
  predicted_answer : String
  is_correct : Option Bool
deriving DecidableEq, Repr

/-- Token accumulation in `run_case`: each `if response.tokens_used:` guard adds
the count unless it is `None` (or `0`, which Python treats as falsy — adding
zero is the same as skipping it). -/
def tokensAdd (total : ℕ) (tokens_used : Option ℕ) : ℕ :=
  total + tokens_used.getD 0

/-- `OrchestratedCase.to_trace`'s correctness flag: set only when a
ground-truth answer is supplied and truthy (a non-empty string). -/
def isCorrectFlag (correct_answer : Option String) (final_decision : FinalDecision) :
    Option Bool :=
  match correct_answer with
  | none => none
  | some ca => if ca = "" then none else some (decide (final_decision.final_answer = ca))

/-- `orchestration.run_case`: planner, then at most `max_specialists`
specialist consultations, then aggregator, assembled into a `CaseTrace`
(`total_tokens` is reported only when positive, per `to_trace`). Any raised
step error is re-raised as a case-execution failure. -/
def run_case (config : Config) (pparse : String → Option PlannerResult)
    (presp1 presp2 : LLMResponse)
    (consult : ℕ → String → Except String (SpecialistReport × LLMResponse))
    (aparse : String → Option FinalDecision) (aresp1 aresp2 : LLMResponse)
    (question : String) (options : Option (List String)) (correct_answer : Option String) :
    Except String (FinalDecision × CaseTrace) :=
  match run_planner config pparse presp1 presp2 with
  | .error e => .error ("Case execution failed: " ++ e)
  | .ok (planner_result, planner_response) =>
    let total0 := tokensAdd 0 planner_response.tokens_used
    let planner_trace : AgentTrace :=
      { agent_type := .planner, specialty_id := none,
        model := planner_response.model, tokens_used := planner_response.tokens_used }
    let selected_specialties := planner_result.selected_specialties.take config.budgets.max_specialists
    match run_specialists consult selected_specialties with
    | .error e => .error ("Case execution failed: " ++ e)
    | .ok specialist_results =>
      let specialist_reports := specialist_results.map Prod.fst
      let specialist_traces := specialist_results.map (fun rr =>
        ({ agent_type := .specialist, specialty_id := some rr.1.specialty_id,
           model := rr.2.model, tokens_used := rr.2.tokens_used } : AgentTrace))
      let total1 := specialist_results.foldl (fun t rr => tokensAdd t rr.2.tokens_used) total0
      match run_aggregator config aparse aresp1 aresp2 specialist_reports with
      | .error e => .error ("Case execution failed: " ++ e)
      | .ok (final_decision, aggregator_response) =>
        let aggregator_trace : AgentTrace :=
          { agent_type := .aggregator, specialty_id := none,
            model := aggregator_response.model, tokens_used := aggregator_response.tokens_used }
        let total2 := tokensAdd total1 aggregator_response.tokens_used
        let trace : CaseTrace :=
          { question := question, options := options,
            planner_trace := planner_trace,
            specialist_traces := specialist_traces,
            aggregator_trace := aggregator_trace,
            final_decision := final_decision,
            total_tokens := if 0 < total2 then some total2 else none,
            correct_answer := correct_answer,
            predicted_answer := final_decision.final_answer,
            is_correct := isCorrectFlag correct_answer final_decision }
        .ok (final_decision, trace)

/-! ### Debate baseline (`src/baselines/debate.py`)

The backend is modelled as the stream `llm : ℕ → LLMResponse` of responses to
the successive `llm_client.complete` calls, in call order. -/

/-- The `round` field of a debate-history entry: the Python value is either the
round number or the string `"consensus"`. -/
inductive DebateRoundTag where
  | num (n : ℕ)
  | consensus
deriving DecidableEq, Repr

/-- One entry of `debate_history`. -/
structure DebateEntry where
  round : DebateRoundTag
  agent : String
  position : String
deriving DecidableEq, Repr

/-- Result dict of `run_debate`, restricted to the statable fields. -/
structure DebateResult where
  method : String
  answer : String
  debate_rounds : ℕ
  agents_used : ℕ
  tokens_used : ℕ
  latency_seconds : ℚ
  debate_history : List DebateEntry
  full_response : String
deriving DecidableEq, Repr

/-- State carried through the debate loop: next call index, accumulated
tokens, accumulated latency, history so far, and the two agents' latest
positions. -/
structure DebateState where
  callIdx : ℕ
  tokens : ℕ
  latency : ℚ
  history : List DebateEntry
  posA : String
  posB : String
deriving DecidableEq, Repr

/-- One debate round of `run_debate`'s `for round_num in range(2, rounds + 1)`
loop: agent A rebuts, then agent B rebuts, both appended to the history. -/
def debateRoundStep (llm : ℕ → LLMResponse) (st : DebateState) (round_num : ℕ) : DebateState :=
  let ra := llm st.callIdx
  let rb := llm (st.callIdx + 1)
  { callIdx := st.callIdx + 2,
    tokens := st.tokens + ra.tokens_used.getD 0 + rb.tokens_used.getD 0,
    latency := st.latency + ra.latency_seconds + rb.latency_seconds,
    history := st.history ++
      [{ round := .num round_num, agent := "A", position := ra.content },
       { round := .num round_num, agent := "B", position := rb.content }],
    posA := ra.content,
    posB := rb.content }

/-- `debate._extract_answer` is a regex scan over free text; its result string
does not affect any claim here, so it is abstracted as an oracle argument
`extract_answer` to `run_debate`. -/
def run_debate (extract_answer : String → Option (List String) → String)
    (llm : ℕ → LLMResponse) (question : String) (options : Option (List String))
    (rounds : ℕ := 3) : DebateResult :=
  let agent_a_response := llm 0
  let agent_b_response := llm 1
  let st0 : DebateState :=
    { callIdx := 2,
      tokens := agent_a_response.tokens_used.getD 0 + agent_b_response.tokens_used.getD 0,
      latency := agent_a_response.latency_seconds + agent_b_response.latency_seconds,
      history :=
        [{ round := .num 1, agent := "A", position := agent_a_response.content },
         { round := .num 1, agent := "B", position := agent_b_response.content }],
      posA := agent_a_response.content,
      posB := agent_b_response.content }
  let st := (List.range' 2 (rounds - 1)).foldl (debateRoundStep llm) st0
  let consensus_response := llm st.callIdx
  { method := "debate",
    answer := extract_answer consensus_response.content options,
    debate_rounds := rounds,
    agents_used := 2,
    tokens_used := st.tokens + consensus_response.tokens_used.getD 0,
    latency_seconds := st.latency + consensus_response.latency_seconds,
    debate_history := st.history ++
      [{ round := .consensus, agent := "Moderator", position := consensus_response.content }],
    full_response := consensus_response.content }

/-! ### JSON extraction (`src/json_utils.py`)

`extract_json_from_llm_response` is character-level text surgery followed by
`json.loads`; it is modelled over `List Char`. Python's `str.strip` whitespace
set is space, tab, newline, carriage return, vertical tab and form feed. -/

/-- Whitespace stripped by Python `str.strip()`. -/
def isPySpace (c : Char) : Bool :=
  c = ' ' || c = '\t' || c = '\n' || c = '\r' || c.toNat = 11 || c.toNat = 12

/-- Python `str.lstrip()`. -/
def pyLStrip (l : List Char) : List Char := l.dropWhile isPySpace

/-- Python `str.rstrip()`. -/
def pyRStrip (l : List Char) : List Char := (l.reverse.dropWhile isPySpace).reverse

/-- Python `str.strip()`. -/
def pyStrip (l : List Char) : List Char := pyRStrip (pyLStrip l)

/-- `pattern.isPrefixOf l` on character lists (Python `str.startswith`). -/
def startsWithCh : List Char → List Char → Bool
  | [], _ => true
  | _ :: _, [] => false
  | p :: ps, c :: cs => p = c && startsWithCh ps cs

/-- Python `str.endswith`. -/
def endsWithCh (pat l : List Char) : Bool := startsWithCh pat.reverse l.reverse

/-- Index of the first occurrence of `c`, if any. -/
def findCharIdx (c : Char) : List Char → Option ℕ
  | [] => none
  | x :: xs => if x = c then some 0 else (findCharIdx c xs).map (fun i => i + 1)

/-- Python `str.find`: first index or `-1`. -/
def pyFind (c : Char) (l : List Char) : ℤ :=
  match findCharIdx c l with
  | some i => (i : ℤ)
  | none => -1

/-- Python `str.rfind`: last index or `-1`. -/
def pyRFind (c : Char) (l : List Char) : ℤ :=
  match findCharIdx c l.reverse with
  | some i => ((l.length - 1 - i : ℕ) : ℤ)
  | none => -1

/-- One scanning pass of `re.sub(r'//[^\n]*', '', text)`, fuel-bounded for
structural recursion (one unit of fuel covers at least one consumed
character, so `length + 1` fuel always suffices). -/
def removeLineCommentsF : ℕ → List Char → List Char
  | 0, l => l
  | _, [] => []
  | _, [c] => [c]
  | fuel + 1, a :: b :: rest =>
    if a = '/' && b = '/' then removeLineCommentsF fuel (rest.dropWhile (fun c => c ≠ '\n'))
    else a :: removeLineCommentsF fuel (b :: rest)

/-- `re.sub(r'//[^\n]*', '', text)`: drop from each `//` to (excluding) the
next newline. -/
def removeLineComments (l : List Char) : List Char :=
  removeLineCommentsF (l.length + 1) l

/-- Scan for the next `*/`; on success return what follows it. -/
def dropThroughBlockClose : List Char → Option (List Char)
  | [] => none
  | a :: rest =>
    if a = '*' then
      match rest with
      | '/' :: rest2 => some rest2
      | _ => dropThroughBlockClose rest
    else dropThroughBlockClose rest

/-- One scanning pass of `re.sub(r'/\*.*?\*/', '', text, flags=re.DOTALL)`,
fuel-bounded for structural recursion. -/
def removeBlockCommentsF : ℕ → List Char → List Char
  | 0, l => l
  | _, [] => []
  | _, [c] => [c]
  | fuel + 1, a :: b :: rest =>
    if a = '/' && b = '*' then
      match dropThroughBlockClose rest with
      | some rem => removeBlockCommentsF fuel rem
      | none => a :: b :: rest
    else a :: removeBlockCommentsF fuel (b :: rest)

/-- `re.sub(r'/\*.*?\*/', '', text, flags=re.DOTALL)`: non-greedy
block-comment removal — each `/*` is cut through the first following `*/`; an
unclosed `/*` matches nothing and is kept verbatim. -/
def removeBlockComments (l : List Char) : List Char :=
  removeBlockCommentsF (l.length + 1) l

/-- The fence-removal step of `extract_json_from_llm_response`: peel a leading
```` ```json ```` (or bare ```` ``` ````) and a trailing ```` ``` ````. -/
def stripFences (text : List Char) : List Char :=
  let text :=
    if startsWithCh ("```json".toList) text then text.drop 7
    else if startsWithCh ("```".toList) text then text.drop 3
    else text
  if endsWithCh ("```".toList) text then text.take (text.length - 3) else text

/-- The start-slicing step of `extract_json_from_llm_response`: cut from the
first `{` (or, failing that, the first `[`) — with the source's quirk that an
index of `0` performs no cut. -/
def sliceStart (text : List Char) : List Char :=
  let json_start := pyFind '{' text
  if 0 < json_start then text.drop json_start.toNat
  else if json_start < 0 then
    let array_start := pyFind '[' text
    if 0 < array_start then text.drop array_start.toNat else text
  else text

/-- The end-slicing step of `extract_json_from_llm_response`: cut after the
last `}`/`]` — with the source's quirk that an index of `0` performs no
cut. -/
def sliceEnd (text : List Char) : List Char :=
  let json_end := max (pyRFind '}' text) (pyRFind ']' text)
  if 0 < json_end then text.take (json_end.toNat + 1) else text

/-- The slicing step of `extract_json_from_llm_response`: cut from the first
`{` (or `[`) through the last `}`/`]`. -/
def sliceToJson (text : List Char) : List Char :=
  sliceEnd (sliceStart text)

/-- The text-manipulation part of `json_utils.extract_json_from_llm_response`
(everything before the final `json.loads`), in the source's order: strip,
peel markdown fences, strip again, slice to the JSON braces, then remove
`//` and `/* */` comments. -/
def extractJsonText (text : List Char) : List Char :=
  removeBlockComments (removeLineComments (sliceToJson (pyStrip (stripFences (pyStrip text)))))

/-! #### A model of `json.loads`

`json.loads` is Python standard library, external to this repository; it is
modelled here on the JSON fragment the concrete claims exercise (objects,
arrays, strings with simple escapes, integers, booleans, null — no floats and
no `\u` escapes). -/

/-- A parsed JSON value. -/
inductive JsonVal where
  | null
  | bool (b : Bool)
  | num (n : ℤ)
  | str (s : List Char)
  | arr (elems : List JsonVal)
  | obj (fields : List (List Char × JsonVal))

/-- JSON insignificant whitespace. -/
def skipJsonWs (l : List Char) : List Char :=
  l.dropWhile (fun c => c = ' ' || c = '\t' || c = '\n' || c = '\r')

/-- Decode one string-escape character (the `\u` form is outside the fragment). -/
def jsonEscapeChar (c : Char) : Option Char :=
  if c = '"' then some '"'
  else if c = '\\' then some '\\'
  else if c = '/' then some '/'
  else if c = 'n' then some '\n'
  else if c = 't' then some '\t'
  else if c = 'r' then some '\r'
  else if c = 'b' then some (Char.ofNat 8)
  else if c = 'f' then some (Char.ofNat 12)
  else none

/-- Parse a JSON string body (the opening quote already consumed), returning
the decoded characters and the rest of the input. -/
def parseJsonStringBody : List Char → Option (List Char × List Char)
  | [] => none
  | '"' :: rest => some ([], rest)
  | '\\' :: e :: rest =>
    match jsonEscapeChar e with
    | some c => (parseJsonStringBody rest).map (fun p => (c :: p.1, p.2))
    | none => none
  | c :: rest => (parseJsonStringBody rest).map (fun p => (c :: p.1, p.2))

/-- Digits-to-integer accumulator. -/
def digitsToNat (l : List Char) : ℕ :=
  l.foldl (fun n c => n * 10 + (c.toNat - 48)) 0

/-- Parse a JSON integer (optional sign, decimal digits). -/
def parseJsonNumber (l : List Char) : Option (ℤ × List Char) :=
  let (neg, l') := match l with
    | '-' :: rest => (true, rest)
    | _ => (false, l)
  let digits := l'.takeWhile Char.isDigit
  if digits.isEmpty then none
  else
    let n : ℤ := digitsToNat digits
    some (if neg then -n else n, l'.drop digits.length)

mutual

/-- Parse one JSON value (fuel-bounded recursive descent). -/
def parseJsonValueF : ℕ → List Char → Option (JsonVal × List Char)
  | 0, _ => none
  | fuel + 1, l =>
    match skipJsonWs l with
    | '{' :: rest =>
      match skipJsonWs rest with
      | '}' :: rest2 => some (.obj [], rest2)
      | rest2 => (parseJsonFieldsF fuel rest2).map (fun p => (.obj p.1, p.2))
    | '[' :: rest =>
      match skipJsonWs rest with
      | ']' :: rest2 => some (.arr [], rest2)
      | rest2 => (parseJsonElemsF fuel rest2).map (fun p => (.arr p.1, p.2))
    | '"' :: rest => (parseJsonStringBody rest).map (fun p => (.str p.1, p.2))
    | 't' :: rest =>
      if startsWithCh ("rue".toList) rest then some (.bool true, rest.drop 3) else none
    | 'f' :: rest =>
      if startsWithCh ("alse".toList) rest then some (.bool false, rest.drop 4) else none
    | 'n' :: rest =>
      if startsWithCh ("ull".toList) rest then some (.null, rest.drop 3) else none
    | c :: rest =>
      if c = '-' || c.isDigit then
        (parseJsonNumber (c :: rest)).map (fun p => (.num p.1, p.2))
      else none
    | [] => none

/-- Parse the members of a JSON object after `{` (first key expected next). -/
def parseJsonFieldsF : ℕ → List Char → Option (List (List Char × JsonVal) × List Char)
  | 0, _ => none
  | fuel + 1, l =>
    match skipJsonWs l with
    | '"' :: rest =>
      match parseJsonStringBody rest with
      | some (key, rest2) =>
        match skipJsonWs rest2 with
        | ':' :: rest3 =>
          match parseJsonValueF fuel rest3 with
          | some (v, rest4) =>
            match skipJsonWs rest4 with
            | ',' :: rest5 =>
              (parseJsonFieldsF fuel rest5).map (fun p => ((key, v) :: p.1, p.2))
            | '}' :: rest5 => some ([(key, v)], rest5)
            | _ => none
          | none => none
        | _ => none
      | none => none
    | _ => none

/-- Parse the elements of a JSON array after `[` (first element expected next). -/
def parseJsonElemsF : ℕ → List Char → Option (List JsonVal × List Char)
  | 0, _ => none
  | fuel + 1, l =>
    match parseJsonValueF fuel l with
    | some (v, rest) =>
      match skipJsonWs rest with
      | ',' :: rest2 => (parseJsonElemsF fuel rest2).map (fun p => (v :: p.1, p.2))
      | ']' :: rest2 => some ([v], rest2)
      | _ => none
    | none => none

end

/-- Model of Python `json.loads` on the supported fragment: parse one value
and require only whitespace after it. -/
def jsonLoads (l : List Char) : Option JsonVal :=
  match parseJsonValueF (l.length + 2) l with
  | some (v, rest) => if (skipJsonWs rest).isEmpty then some v else none
  | none => none

/-- `json_utils.extract_json_from_llm_response`: the text surgery of
`extractJsonText` followed by `json.loads`; `none` models a raised
`JSONDecodeError`. -/
def extract_json_from_llm_response (text : List Char) : Option JsonVal :=
  jsonLoads (extractJsonText text)

/-! ### Answer normalization (`scripts/run_baseline_comparison.py`)

`normalize_answer` works on ASCII answer text; the regexes are modelled
character-by-character, including the greedy-with-backtracking `[\s:is]*`
of the `(?:answer|choice)` pattern (case-insensitive, so the class also
matches `I` and `S`). -/

/-- ASCII letter test (`[A-Za-z]`, and `str.isalpha` on the ASCII inputs
the script handles). -/
def isAsciiAlpha (c : Char) : Bool :=
  ('a' ≤ c && c ≤ 'z') || ('A' ≤ c && c ≤ 'Z')

/-- ASCII `str.upper` on one character. -/
def asciiUpper (c : Char) : Char :=
  if 'a' ≤ c && c ≤ 'z' then Char.ofNat (c.toNat - 32) else c

/-- ASCII lowercase, used for the case-insensitive keyword comparison. -/
def asciiLower (c : Char) : Char :=
  if 'A' ≤ c && c ≤ 'Z' then Char.ofNat (c.toNat + 32) else c

/-- The character class `[\s:is]` under `re.IGNORECASE`. -/
def inAnswerStarClass (c : Char) : Bool :=
  isPySpace c || c = ':' || c = 'i' || c = 's' || c = 'I' || c = 'S'

/-- Try `([A-Za-z])(?:\s|$|\.)` at the current position. -/
def tryAnswerLetterAt : List Char → Option Char
  | [] => none
  | [c] => if isAsciiAlpha c then some c else none
  | c :: d :: _ =>
    if isAsciiAlpha c && (isPySpace d || d = '.') then some c else none

/-- Match `[\s:is]*([A-Za-z])(?:\s|$|\.)` with the regex engine's greedy star
and backtracking: longer star consumptions are tried before shorter ones. -/
def answerStarMatch : List Char → Option Char
  | [] => none
  | c :: rest =>
    if inAnswerStarClass c then
      match answerStarMatch rest with
      | some r => some r
      | none => tryAnswerLetterAt (c :: rest)
    else tryAnswerLetterAt (c :: rest)

/-- Case-insensitively strip a (lowercase) literal keyword, returning the
rest of the input on success. -/
def ciStripKeyword : List Char → List Char → Option (List Char)
  | [], l => some l
  | _ :: _, [] => none
  | p :: ps, c :: cs => if asciiLower c = p then ciStripKeyword ps cs else none

/-- Attempt the full pattern `(?:answer|choice)[\s:is]*([A-Za-z])(?:\s|$|\.)`
at the current position (alternatives tried in order). -/
def tryAnswerKeywordAt (l : List Char) : Option Char :=
  match ciStripKeyword ("answer".toList) l with
  | some rem =>
    match answerStarMatch rem with
    | some r => some r
    | none =>
      match ciStripKeyword ("choice".toList) l with
      | some rem2 => answerStarMatch rem2
      | none => none
  | none =>
    match ciStripKeyword ("choice".toList) l with
    | some rem => answerStarMatch rem
    | none => none

/-- `re.search` of the keyword pattern: try each start position left to
right. -/
def searchAnswerKeyword : List Char → Option Char
  | [] => none
  | c :: rest =>
    match tryAnswerKeywordAt (c :: rest) with
    | some r => some r
    | none => searchAnswerKeyword rest

/-- `normalize_answer` on characters: empty-falsy check, strip, single-letter
case, `^([A-Za-z])[\.\)\:]`, the keyword search, `^([A-Za-z])(?:\s)`,
first-letter fallback, else the stripped text itself. -/
def normalizeAnswerChars (answer : List Char) : List Char :=
  if answer = [] then []
  else
    let answer := pyStrip answer
    let single : Option Char :=
      match answer with
      | [c] => if isAsciiAlpha c then some c else none
      | _ => none
    match single with
    | some c => [asciiUpper c]
    | none =>
      let m1 : Option Char :=
        match answer with
        | a :: b :: _ => if isAsciiAlpha a && (b = '.' || b = ')' || b = ':') then some a else none
        | _ => none
      match m1 with
      | some c => [asciiUpper c]
      | none =>
        match searchAnswerKeyword answer with
        | some c => [asciiUpper c]
        | none =>
          let m3 : Option Char :=
            match answer with
            | a :: b :: _ => if isAsciiAlpha a && isPySpace b then some a else none
            | _ => none
          match m3 with
          | some c => [asciiUpper c]
          | none =>
            match answer.find? isAsciiAlpha with
            | some c => [asciiUpper c]
            | none => answer

/-- `run_baseline_comparison.normalize_answer` on `String`s. -/
def normalize_answer (answer : String) : String :=
  String.mk (normalizeAnswerChars answer.toList)

/-! ### Shared helper lemmas -/

/-- Boolean success test for `Except`. -/
def exceptIsOk {ε α : Type} : Except ε α → Bool
  | .ok _ => true
  | .error _ => false

/-- Forget the error of an `Except`. -/
def exceptToOption {ε α : Type} : Except ε α → Option α
  | .ok a => some a
  | .error _ => none

/-- Ids passing `validate_specialty_ids` are catalog ids. -/
theorem validate_specialty_ids_mem {ids : List String}
    (h : (validate_specialty_ids ids).1 = true) :
    ∀ sid ∈ ids, sid ∈ get_specialty_ids := by
  intro sid hsid
  simp only [validate_specialty_ids, List.isEmpty_iff, List.filter_eq_nil_iff] at h
  have := h sid hsid
  simpa using this

/-- A catalog id is the id of a catalog entry. -/
theorem mem_get_specialty_ids {sid : String} :
    sid ∈ get_specialty_ids ↔ ∃ spec ∈ SPECIALTY_CATALOG, spec.id = sid := by
  simp [get_specialty_ids]

/-- An id of `ids` that is not flagged invalid by `validate_specialty_ids` is a
catalog id. -/
theorem mem_of_not_invalid {ids : List String} {sid : String}
    (hmem : sid ∈ ids) (hni : sid ∉ (validate_specialty_ids ids).2) :
    sid ∈ get_specialty_ids := by
  by_contra hno
  apply hni
  simp only [validate_specialty_ids, List.mem_filter]
  exact ⟨hmem, by simpa using hno⟩

/-! ### C9 — answer normalization -/

/-- C9: the answer-normalization function satisfies all four documented cases:
`normalize_answer "A. Some diagnosis" = "A"`, `normalize_answer "Answer: B" = "B"`,
`normalize_answer "b" = "B"`, and `normalize_answer "" = ""`. -/
theorem c9_normalize_answer_cases :
    normalize_answer "A. Some diagnosis" = "A" ∧
    normalize_answer "Answer: B" = "B" ∧
    normalize_answer "b" = "B" ∧
    normalize_answer "" = "" :=
  ⟨rfl, rfl, rfl, rfl⟩

/-! ### C3 — debate round-count -/

/-- Each debate-loop step appends exactly two history entries. -/
theorem debateRoundStep_history_length (llm : ℕ → LLMResponse) (st : DebateState) (n : ℕ) :
    (debateRoundStep llm st n).history.length = st.history.length + 2 := by
  simp [debateRoundStep]

/-- The debate loop appends two history entries per processed round. -/
theorem debate_loop_history_length (llm : ℕ → LLMResponse) :
    ∀ (l : List ℕ) (st : DebateState),
      ((l.foldl (debateRoundStep llm) st).history).length = st.history.length + 2 * l.length
  | [], st => by simp
  | n :: l, st => by
    have := debate_loop_history_length llm l (debateRoundStep llm st n)
    simp only [List.foldl_cons, this, debateRoundStep_history_length, List.length_cons]
    ring

/-- C3 counterexample: with `rounds = 1` the debate history has 3 entries, not
`2 * 1 + 2 = 4` — the two initial entries plus one consensus entry, with no
further loop iterations. -/
theorem c3_debate_history_counterexample :
    (run_debate (fun _ _ => "UNKNOWN") (fun _ => { content := "" }) "q" none 1).debate_history.length
      ≠ 2 * 1 + 2 := by
  decide

/-- C3 (amended): for every `rounds = N ≥ 1` and every response stream,
`run_debate` produces exactly `2 * N + 1` entries in `debate_history`:
two round-1 entries, two entries for each of rounds `2..N`, and one
consensus entry. -/
theorem c3_debate_history_count (extract_answer : String → Option (List String) → String)
    (llm : ℕ → LLMResponse) (question : String) (options : Option (List String))
    (rounds : ℕ) (h : 1 ≤ rounds) :
    (run_debate extract_answer llm question options rounds).debate_history.length
      = 2 * rounds + 1 := by
  simp only [run_debate, List.length_append, debate_loop_history_length, List.length_range',
    List.length_cons, List.length_nil]
  omega

/-- C3 amended-claim witness at `rounds = 3`: the history has `2 * 3 + 1 = 7`
entries. -/
theorem c3_debate_history_count_witness :
    (run_debate (fun _ _ => "UNKNOWN") (fun _ => { content := "" }) "q" none 3).debate_history.length
      = 2 * 3 + 1 :=
  c3_debate_history_count (fun _ _ => "UNKNOWN") (fun _ => { content := "" }) "q" none 3
    (by decide)

/-! ### C5 / C10 — specialist report invariants -/

/-- A validated `SpecialistReport` satisfies the differential bounds. -/
theorem specialistReportValid_bounds {r : SpecialistReport}
    (h : specialistReportValid r = true) :
    r.differential.length ≤ 3 ∧ differentialSumP r.differential ≤ 1.01 := by
  simp only [specialistReportValid, Bool.and_eq_true, decide_eq_true_eq] at h
  exact ⟨h.1.2.2, h.2⟩

/-- A successfully parsed specialist response passed the pydantic validation. -/
theorem parseSpecialistResponse_valid {sparse : String → Option SpecialistReport}
    {content : String} {r : SpecialistReport}
    (h : parseSpecialistResponse sparse content = some r) :
    specialistReportValid r = true := by
  unfold parseSpecialistResponse at h
  split at h
  · split at h
    · simp only [Option.some.injEq] at h
      subst h
      assumption
    · exact absurd h (by simp)
  · exact absurd h (by simp)

/-- Any report returned by `run_specialist` is the parsed report with at most
its `specialty_id` overwritten; in particular its differential passed
validation. -/
theorem run_specialist_ok_valid {config : Config} {sparse : String → Option SpecialistReport}
    {resp1 resp2 : LLMResponse} {specialty_id : String} {retry : Bool}
    {rep : SpecialistReport} {resp : LLMResponse}
    (h : run_specialist config sparse resp1 resp2 specialty_id retry = .ok (rep, resp)) :
    ∃ r0, specialistReportValid r0 = true ∧ rep.differential = r0.differential ∧
      (rep.specialty_id = specialty_id ∨ rep = r0) := by
  unfold run_specialist at h
  cases hcat : get_specialty_by_id specialty_id with
  | none => rw [hcat] at h; exact absurd h (by simp)
  | some sp =>
    rw [hcat] at h
    cases hp : parseSpecialistResponse sparse resp1.content with
    | some r0 =>
      rw [hp] at h
      simp only [Except.ok.injEq, Prod.mk.injEq] at h
      refine ⟨r0, parseSpecialistResponse_valid hp, ?_, ?_⟩
      · rcases h with ⟨hrep, _⟩
        by_cases hid : r0.specialty_id ≠ specialty_id
        · rw [if_pos hid] at hrep
          rw [← hrep]
        · rw [if_neg hid] at hrep
          rw [← hrep]
      · rcases h with ⟨hrep, _⟩
        by_cases hid : r0.specialty_id ≠ specialty_id
        · rw [if_pos hid] at hrep
          left
          rw [← hrep]
        · rw [if_neg hid] at hrep
          right
          exact hrep.symm
    | none =>
      rw [hp] at h
      by_cases hretry : (retry && 0 < config.budgets.max_retries : Bool) = true
      · rw [if_pos hretry] at h
        unfold retry_specialist_with_fix at h
        cases hp2 : parseSpecialistResponse sparse resp2.content with
        | some r2 =>
          rw [hp2] at h
          simp only [Except.ok.injEq, Prod.mk.injEq] at h
          refine ⟨r2, parseSpecialistResponse_valid hp2, ?_, ?_⟩
          · rw [← h.1]
          · left
            rw [← h.1]
        | none => rw [hp2] at h; exact absurd h (by simp)
      · rw [if_neg hretry] at h
        exact absurd h (by simp)

/-- C5: a `SpecialistReport` whose differential exceeds 3 items or whose
probabilities sum above `1.01` is rejected at construction, and every report
returned by `run_specialist` has at most 3 differential items with
probabilities summing to at most `1.01`. -/
theorem c5_specialist_report_bounds :
    (∀ rep : SpecialistReport,
      3 < rep.differential.length ∨ 1.01 < differentialSumP rep.differential →
        specialistReportValid rep = false) ∧
    (∀ (config : Config) (sparse : String → Option SpecialistReport)
        (resp1 resp2 : LLMResponse) (specialty_id : String) (retry : Bool)
        (rep : SpecialistReport) (resp : LLMResponse),
      run_specialist config sparse resp1 resp2 specialty_id retry = .ok (rep, resp) →
        rep.differential.length ≤ 3 ∧ differentialSumP rep.differential ≤ 1.01) := by
  constructor
  · intro rep h
    rcases h with h | h
    · have hlen : ¬(1 ≤ rep.differential.length ∧ rep.differential.length ≤ 3) := by omega
      simp [specialistReportValid, hlen]
    · have hsum : ¬(differentialSumP rep.differential ≤ 1.01) := not_le.mpr h
      simp [specialistReportValid, hsum]
  · intro config sparse resp1 resp2 specialty_id retry rep resp h
    obtain ⟨r0, hr0, hdiff, _⟩ := run_specialist_ok_valid h
    have := specialistReportValid_bounds hr0
    rw [hdiff]
    exact this

/-- C5 witness: a one-item differential with `p = 1/2` is accepted by a
concrete `run_specialist` call on `"cardiology"` and satisfies the bounds;
an oversized differential is rejected. -/
theorem c5_specialist_report_bounds_witness :
    specialistReportValid
      { specialty_id := "x",
        differential :=
          [{ dx := "a", p := 0.3 }, { dx := "b", p := 0.3 },
           { dx := "c", p := 0.3 }, { dx := "d", p := 0.1 }] } = false ∧
    (({ specialty_id := "cardiology",
        differential := [{ dx := "MI", p := 0.5 }] } : SpecialistReport).differential.length ≤ 3 ∧
      differentialSumP
        ({ specialty_id := "cardiology",
           differential := [{ dx := "MI", p := 0.5 }] } : SpecialistReport).differential ≤ 1.01) :=
  ⟨c5_specialist_report_bounds.1 _ (Or.inl (by decide)),
   c5_specialist_report_bounds.2 {}
     (fun _ => some { specialty_id := "cardiology", differential := [{ dx := "MI", p := 0.5 }] })
     { content := "r1" } { content := "r2" } "cardiology" true
     { specialty_id := "cardiology", differential := [{ dx := "MI", p := 0.5 }] }
     { content := "r1" } (by with_unfolding_all rfl)⟩

/-- C10: every report returned by `run_specialist` — first-attempt or
corrective-retry path — carries the requested `specialty_id`, even when the
parsed model output carried a different one. -/
theorem c10_specialist_id_forced (config : Config)
    (sparse : String → Option SpecialistReport) (resp1 resp2 : LLMResponse)
    (specialty_id : String) (retry : Bool) (rep : SpecialistReport) (resp : LLMResponse)
    (h : run_specialist config sparse resp1 resp2 specialty_id retry = .ok (rep, resp)) :
    rep.specialty_id = specialty_id := by
  unfold run_specialist at h
  cases hcat : get_specialty_by_id specialty_id with
  | none => rw [hcat] at h; exact absurd h (by simp)
  | some sp =>
    rw [hcat] at h
    cases hp : parseSpecialistResponse sparse resp1.content with
    | some r0 =>
      rw [hp] at h
      simp only [Except.ok.injEq, Prod.mk.injEq] at h
      rcases h with ⟨hrep, _⟩
      by_cases hid : r0.specialty_id ≠ specialty_id
      · rw [if_pos hid] at hrep
        rw [← hrep]
      · rw [if_neg hid] at hrep
        rw [← hrep]
        exact not_not.mp hid
    | none =>
      rw [hp] at h
      by_cases hretry : (retry && 0 < config.budgets.max_retries : Bool) = true
      · rw [if_pos hretry] at h
        unfold retry_specialist_with_fix at h
        cases hp2 : parseSpecialistResponse sparse resp2.content with
        | some r2 =>
          rw [hp2] at h
          simp only [Except.ok.injEq, Prod.mk.injEq] at h
          rw [← h.1]
        | none => rw [hp2] at h; exact absurd h (by simp)
      · rw [if_neg hretry] at h
        exact absurd h (by simp)

/-- C10 witness: a parsed report claiming `"neurology"` is returned with the
requested id `"cardiology"`. -/
theorem c10_specialist_id_forced_witness :
    ({ specialty_id := "cardiology",
       differential := [{ dx := "MI", p := 0.5 }] } : SpecialistReport).specialty_id
      = "cardiology" :=
  c10_specialist_id_forced {}
    (fun _ => some { specialty_id := "neurology", differential := [{ dx := "MI", p := 0.5 }] })
    { content := "r1" } { content := "r2" } "cardiology" true
    { specialty_id := "cardiology", differential := [{ dx := "MI", p := 0.5 }] }
    { content := "r1" } (by with_unfolding_all rfl)

/-! ### C2 — specialist failure tolerance -/

/-- The consultation loop collects, in order, exactly the successful outcomes,
with the `i`-th selected id consulted as call `i`. -/
theorem specialistsLoop_eq (consult : ℕ → String → Except String (SpecialistReport × LLMResponse)) :
    ∀ (selected : List String) (i : ℕ),
      specialistsLoop consult i selected =
        (List.enumFrom i selected).filterMap (fun p => exceptToOption (consult p.1 p.2))
  | [], i => by simp [specialistsLoop]
  | sid :: rest, i => by
    rw [specialistsLoop, List.enumFrom_cons, List.filterMap_cons]
    cases h : consult i sid with
    | ok r => simp [exceptToOption, specialistsLoop_eq consult rest (i + 1)]
    | error e => simp [exceptToOption, specialistsLoop_eq consult rest (i + 1)]

/-- C2: `run_specialists` raises if and only if every individual consultation
fails; when at least one succeeds, it returns exactly the (report, response)
pairs of the succeeding consultations, in the order of
`selected_specialties`. -/
theorem c2_run_specialists_partial_failure
    (consult : ℕ → String → Except String (SpecialistReport × LLMResponse))
    (selected_specialties : List String) :
    (exceptIsOk (run_specialists consult selected_specialties) = false ↔
      ∀ p ∈ selected_specialties.enum, exceptIsOk (consult p.1 p.2) = false) ∧
    (∀ out, run_specialists consult selected_specialties = .ok out →
      out = selected_specialties.enum.filterMap (fun p => exceptToOption (consult p.1 p.2))) := by
  have hloop := specialistsLoop_eq consult selected_specialties 0
  constructor
  · rw [run_specialists]
    by_cases hempty : (specialistsLoop consult 0 selected_specialties).isEmpty = true
    · rw [if_pos hempty]
      simp only [exceptIsOk, true_iff]
      intro p hp
      rw [hloop, List.isEmpty_iff, List.filterMap_eq_nil_iff] at hempty
      have := hempty p (by simpa [List.enum] using hp)
      cases hc : consult p.1 p.2 with
      | ok r => rw [hc] at this; simp [exceptToOption] at this
      | error e => simp [exceptIsOk]
    · rw [if_neg hempty]
      simp only [exceptIsOk]
      constructor
      · intro habs
        exact absurd habs (by simp)
      · intro hall
        exfalso
        apply hempty
        rw [hloop, List.isEmpty_iff, List.filterMap_eq_nil_iff]
        intro p hp
        have := hall p (by simpa [List.enum] using hp)
        cases hc : consult p.1 p.2 with
        | ok r => rw [hc] at this; simp [exceptIsOk] at this
        | error e => simp [exceptToOption]
  · intro out hout
    rw [run_specialists] at hout
    by_cases hempty : (specialistsLoop consult 0 selected_specialties).isEmpty = true
    · rw [if_pos hempty] at hout
      exact absurd hout (by simp)
    · rw [if_neg hempty] at hout
      simp only [Except.ok.injEq] at hout
      rw [← hout, hloop, List.enum]

/-- C2 witness: with the first of two consultations failing and the second
succeeding, `run_specialists` succeeds and returns exactly the second
(report, response) pair, as characterized by the theorem. -/
theorem c2_run_specialists_partial_failure_witness :
    run_specialists
        (fun i _ =>
          if i = 0 then .error "boom"
          else .ok ({ specialty_id := "neurology", differential := [{ dx := "MI", p := 0.5 }] },
                    { content := "r" }))
        ["cardiology", "neurology"]
      = .ok [({ specialty_id := "neurology", differential := [{ dx := "MI", p := 0.5 }] },
              { content := "r" })] ∧
    [(({ specialty_id := "neurology", differential := [{ dx := "MI", p := 0.5 }] } :
        SpecialistReport),
      ({ content := "r" } : LLMResponse))]
      = (["cardiology", "neurology"].enum).filterMap
          (fun p => exceptToOption
            ((fun (i : ℕ) (_ : String) =>
              if i = 0 then (.error "boom" : Except String (SpecialistReport × LLMResponse))
              else .ok ({ specialty_id := "neurology",
                          differential := [{ dx := "MI", p := 0.5 }] },
                        { content := "r" })) p.1 p.2)) :=
  ⟨by with_unfolding_all rfl,
   (c2_run_specialists_partial_failure
      (fun i _ =>
        if i = 0 then .error "boom"
        else .ok ({ specialty_id := "neurology", differential := [{ dx := "MI", p := 0.5 }] },
                  { content := "r" }))
      ["cardiology", "neurology"]).2 _ (by with_unfolding_all rfl)⟩

/-! ### C1 / C8 / C4 — planner invariants -/

/-- `List.contains` agrees with membership (Boolean `true` form). -/
theorem string_contains_iff {l : List String} {a : String} : l.contains a = true ↔ a ∈ l :=
  List.elem_iff

/-- `List.contains` agrees with membership (Boolean `false` form). -/
theorem string_contains_false_iff {l : List String} {a : String} :
    l.contains a = false ↔ a ∉ l := by
  constructor
  · intro h hmem
    rw [string_contains_iff.mpr hmem] at h
    cases h
  · intro h
    cases hc : l.contains a
    · rfl
    · exact absurd (string_contains_iff.mp hc) h

/-- Membership is preserved by the stable descending insertion. -/
theorem mem_insertByRelevanceDesc {a x : ScoredSpecialty} :
    ∀ {l : List ScoredSpecialty}, a ∈ insertByRelevanceDesc x l ↔ a = x ∨ a ∈ l
  | [] => by simp [insertByRelevanceDesc]
  | y :: ys => by
    rw [insertByRelevanceDesc]
    by_cases hrel : y.relevance ≤ x.relevance
    · rw [if_pos hrel]
      simp
    · rw [if_neg hrel]
      rw [List.mem_cons, List.mem_cons, mem_insertByRelevanceDesc]
      tauto

/-- Membership is preserved by the stable descending sort. -/
theorem mem_sortByRelevanceDesc {a : ScoredSpecialty} :
    ∀ {l : List ScoredSpecialty}, a ∈ sortByRelevanceDesc l ↔ a ∈ l
  | [] => by simp [sortByRelevanceDesc]
  | x :: xs => by
    rw [sortByRelevanceDesc, mem_insertByRelevanceDesc, List.mem_cons,
      mem_sortByRelevanceDesc]

/-- The stable descending insertion adds exactly one element. -/
theorem length_insertByRelevanceDesc (x : ScoredSpecialty) :
    ∀ (l : List ScoredSpecialty), (insertByRelevanceDesc x l).length = l.length + 1
  | [] => by simp [insertByRelevanceDesc]
  | y :: ys => by
    rw [insertByRelevanceDesc]
    by_cases hrel : y.relevance ≤ x.relevance
    · rw [if_pos hrel]
      simp
    · rw [if_neg hrel]
      simp [length_insertByRelevanceDesc x ys]

/-- The stable descending sort preserves length. -/
theorem length_sortByRelevanceDesc :
    ∀ (l : List ScoredSpecialty), (sortByRelevanceDesc l).length = l.length
  | [] => rfl
  | x :: xs => by
    rw [sortByRelevanceDesc, length_insertByRelevanceDesc,
      length_sortByRelevanceDesc xs, List.length_cons]

/-- Every id selected by the planner fallback is a catalog id: kept ids
survived the invalid-id filter, and backfilled ids are drawn from
catalog-validated scored entries. -/
theorem plannerFallback_selected_valid (config : Config) (planner_result : PlannerResult) :
    ∀ sid ∈ (plannerFallback config planner_result
        (validate_specialty_ids planner_result.selected_specialties).2).selected_specialties,
      sid ∈ get_specialty_ids := by
  intro sid hsid
  unfold plannerFallback at hsid
  simp only at hsid
  have hsid' := List.mem_of_mem_take hsid
  by_cases hlen :
      (planner_result.selected_specialties.filter
        (fun s =>
          !((validate_specialty_ids planner_result.selected_specialties).2.contains s))).length
      < config.planner.top_k
  · rw [if_pos hlen] at hsid'
    rcases List.mem_append.mp hsid' with hkeep | hfill
    · have hmem := List.mem_filter.mp hkeep
      refine mem_of_not_invalid hmem.1 ?_
      have := hmem.2
      rw [Bool.not_eq_eq_eq_not, Bool.not_true, string_contains_false_iff] at this
      exact this
    · rcases List.mem_map.mp hfill with ⟨s, hs, hsidEq⟩
      have hs2 := List.mem_of_mem_take hs
      have hs3 := mem_sortByRelevanceDesc.mp hs2
      have hs4 := (List.mem_filter.mp hs3).2
      rw [string_contains_iff] at hs4
      have hs5 := (List.mem_filter.mp hs4).2
      rw [Bool.and_eq_true] at hs5
      rw [← hsidEq]
      exact string_contains_iff.mp hs5.1
  · rw [if_neg hlen] at hsid'
    have hmem := List.mem_filter.mp hsid'
    refine mem_of_not_invalid hmem.1 ?_
    have := hmem.2
    rw [Bool.not_eq_eq_eq_not, Bool.not_true, string_contains_false_iff] at this
    exact this

/-- `filterScoredCatalog` does not touch the selected specialties. -/
theorem filterScoredCatalog_selected (planner_result : PlannerResult) :
    (filterScoredCatalog planner_result).selected_specialties
      = planner_result.selected_specialties := by
  unfold filterScoredCatalog
  simp only
  split <;> rfl

/-- A successfully parsed planner response passed the pydantic validation. -/
theorem parsePlannerResponse_valid {pparse : String → Option PlannerResult}
    {content : String} {r : PlannerResult}
    (h : parsePlannerResponse pparse content = some r) :
    plannerResultValid r = true := by
  unfold parsePlannerResponse at h
  split at h
  · split at h
    · simp only [Option.some.injEq] at h
      subst h
      assumption
    · exact absurd h (by simp)
  · exact absurd h (by simp)

/-- C1: every id in the `selected_specialties` of a normally returned
`PlannerResult` — via the direct path, the corrective-retry path, or the
filter-and-backfill fallback path — is the id of an entry of the static
catalog `SPECIALTY_CATALOG`. -/
theorem c1_planner_selected_ids_in_catalog (config : Config)
    (pparse : String → Option PlannerResult) (resp1 resp2 : LLMResponse)
    (res : PlannerResult) (resp : LLMResponse)
    (h : run_planner config pparse resp1 resp2 = .ok (res, resp)) :
    ∀ sid ∈ res.selected_specialties, ∃ spec ∈ SPECIALTY_CATALOG, spec.id = sid := by
  suffices hsuff : ∀ sid ∈ res.selected_specialties, sid ∈ get_specialty_ids by
    intro sid hsid
    exact mem_get_specialty_ids.mp (hsuff sid hsid)
  unfold run_planner at h
  split at h
  · -- first parse failed: no normal return
    exact absurd h (by simp)
  case h_2 planner_result heq =>
    simp only at h
    split at h
    · -- direct path: the selected ids validate
      simp only [Except.ok.injEq, Prod.mk.injEq] at h
      rw [← h.1, filterScoredCatalog_selected]
      exact validate_specialty_ids_mem (by assumption)
    · split at h
      · -- retries enabled: corrective retry, falling back to local repair
        split at h
        case h_1 pr2 hretry =>
          simp only [Except.ok.injEq] at h
          unfold retry_planner_with_correction at hretry
          split at hretry
          · exact absurd hretry (by simp)
          · split at hretry
            · simp only [Except.ok.injEq] at hretry
              subst h
              simp only [Prod.mk.injEq] at hretry
              rw [← hretry.1]
              exact validate_specialty_ids_mem (by assumption)
            · exact absurd hretry (by simp)
        case h_2 e hretry =>
          simp only [Except.ok.injEq, Prod.mk.injEq] at h
          rw [← h.1, filterScoredCatalog_selected]
          exact plannerFallback_selected_valid config planner_result
      · -- retries disabled: raises
        exact absurd h (by simp)

/-- C1 witness: a concrete run whose parsed result selects `"cardiology"`
returns normally, and the selected id is a catalog entry's id. -/
theorem c1_planner_selected_ids_in_catalog_witness :
    ∃ spec ∈ SPECIALTY_CATALOG, spec.id = "cardiology" :=
  c1_planner_selected_ids_in_catalog {}
    (fun _ => some (PlannerResult.mk "pediatrics" [] ["cardiology"] ""))
    { content := "r1" } { content := "r2" }
    (PlannerResult.mk "pediatrics" [] ["cardiology"] "") { content := "r1" }
    (by with_unfolding_all rfl) "cardiology" (by simp)

/-- A validated `PlannerResult` selects between 1 and 5 specialties. -/
theorem plannerResultValid_length {r : PlannerResult} (h : plannerResultValid r = true) :
    1 ≤ r.selected_specialties.length ∧ r.selected_specialties.length ≤ 5 := by
  simp only [plannerResultValid, Bool.and_eq_true, decide_eq_true_eq] at h
  exact h.2

/-- The fallback truncates its repaired selection to `top_k` ids. -/
theorem plannerFallback_selected_length (config : Config) (planner_result : PlannerResult)
    (invalid_ids : List String) :
    (plannerFallback config planner_result invalid_ids).selected_specialties.length
      ≤ config.planner.top_k := by
  unfold plannerFallback
  simp only
  split
  · rw [List.length_take]
    exact min_le_left _ _
  · rw [List.length_take]
    exact min_le_left _ _

/-- C4 (amended): `run_planner` raises if and only if the first response fails
to parse (or validate) as a `PlannerResult` — regardless of the retry
configuration — or the first parse succeeds but selects invalid specialty ids
while retries are disabled. In every other case (in particular, invalid ids
with retries enabled) it returns normally, via the corrective retry or the
local filter-and-backfill repair. -/
theorem c4_planner_failure_condition (config : Config)
    (pparse : String → Option PlannerResult) (resp1 resp2 : LLMResponse) :
    exceptIsOk (run_planner config pparse resp1 resp2) = false ↔
      (parsePlannerResponse pparse resp1.content = none ∨
        (∃ r, parsePlannerResponse pparse resp1.content = some r ∧
          (validate_specialty_ids r.selected_specialties).1 = false ∧
          config.budgets.max_retries = 0)) := by
  unfold run_planner
  cases hp : parsePlannerResponse pparse resp1.content with
  | none => simp [exceptIsOk]
  | some r =>
    simp only
    by_cases hv : (validate_specialty_ids r.selected_specialties).1 = true
    · rw [if_pos hv]
      simp only [exceptIsOk]
      constructor
      · intro habs
        cases habs
      · rintro (habs | ⟨r2, hr2, hvf, _⟩)
        · cases habs
        · simp only [Option.some.injEq] at hr2
          subst hr2
          rw [hv] at hvf
          cases hvf
    · rw [if_neg hv]
      by_cases hr : 0 < config.budgets.max_retries
      · rw [if_pos hr]
        cases hro : retry_planner_with_correction pparse resp2 with
        | ok pr2 =>
          simp only [exceptIsOk]
          constructor
          · intro habs
            cases habs
          · rintro (habs | ⟨r2, hr2, _, hz⟩)
            · cases habs
            · omega
        | error e =>
          simp only [exceptIsOk]
          constructor
          · intro habs
            cases habs
          · rintro (habs | ⟨r2, hr2, _, hz⟩)
            · cases habs
            · omega
      · rw [if_neg hr]
        simp only [exceptIsOk]
        constructor
        · intro _
          refine Or.inr ⟨r, rfl, ?_, by omega⟩
          cases hvb : (validate_specialty_ids r.selected_specialties).1
          · rfl
          · exact absurd hvb hv
        · intro _
          trivial

/-- C4 counterexample: with retries enabled (`max_retries = 1`, the default)
and a first response that fails to parse, `run_planner` still raises — so
"fails permanently only if retries are disabled and the first parse is
invalid" is false as stated. -/
theorem c4_planner_failure_counterexample :
    exceptIsOk (run_planner {} (fun _ => none) { content := "r1" } { content := "r2" }) = false ∧
    ({} : Config).budgets.max_retries ≠ 0 :=
  ⟨rfl, by decide⟩

/-- C4 amended-claim witness: the failure condition holds at a concrete
unparsable first response. -/
theorem c4_planner_failure_condition_witness :
    exceptIsOk (run_planner { budgets := { max_retries := 0 } } (fun _ => none)
      { content := "a" } { content := "b" }) = false :=
  (c4_planner_failure_condition { budgets := { max_retries := 0 } } (fun _ => none)
    { content := "a" } { content := "b" }).mpr (Or.inl rfl)

/-- C8 (amended): a normally returned `PlannerResult` selects at most
`max 5 top_k` specialties: at most 5 on the direct and corrective-retry paths
(enforced by schema validation) and at most `top_k` on the
filter-and-backfill fallback path. The claimed lower bound of 1 does not hold
on the fallback path, which assigns the repaired list without re-validation
and can leave it empty. -/
theorem c8_planner_selected_length (config : Config)
    (pparse : String → Option PlannerResult) (resp1 resp2 : LLMResponse)
    (res : PlannerResult) (resp : LLMResponse)
    (h : run_planner config pparse resp1 resp2 = .ok (res, resp)) :
    res.selected_specialties.length ≤ max 5 config.planner.top_k := by
  unfold run_planner at h
  split at h
  · exact absurd h (by simp)
  case h_2 planner_result heq =>
    simp only at h
    split at h
    · simp only [Except.ok.injEq, Prod.mk.injEq] at h
      rw [← h.1, filterScoredCatalog_selected]
      have := (plannerResultValid_length (parsePlannerResponse_valid heq)).2
      exact le_trans this (le_max_left _ _)
    · split at h
      · split at h
        case h_1 pr2 hretry =>
          simp only [Except.ok.injEq] at h
          subst h
          unfold retry_planner_with_correction at hretry
          split at hretry
          · exact absurd hretry (by simp)
          case h_2 r2 heq2 =>
            split at hretry
            · simp only [Except.ok.injEq, Prod.mk.injEq] at hretry
              rw [← hretry.1]
              have := (plannerResultValid_length (parsePlannerResponse_valid heq2)).2
              exact le_trans this (le_max_left _ _)
            · exact absurd hretry (by simp)
        case h_2 e hretry =>
          simp only [Except.ok.injEq, Prod.mk.injEq] at h
          rw [← h.1, filterScoredCatalog_selected]
          exact le_trans (plannerFallback_selected_length config planner_result _)
            (le_max_right _ _)
      · exact absurd h (by simp)

/-- C8 counterexample: a parsed result selecting only the invalid id `"foo"`
with an empty scored catalog reaches the fallback path (after the corrective
retry also fails) and returns normally with an empty `selected_specialties`
list — violating the claimed lower bound of 1. -/
theorem c8_planner_selected_length_counterexample :
    Except.map (fun p => p.1.selected_specialties.length)
      (run_planner {}
        (fun s => if s = "r1" then some (PlannerResult.mk "pediatrics" [] ["foo"] "") else none)
        { content := "r1" } { content := "r2" }) = .ok 0 := by
  with_unfolding_all rfl

/-- C8 amended-claim witness: a concrete normal return satisfies the
`max 5 top_k` bound. -/
theorem c8_planner_selected_length_witness :
    (PlannerResult.mk "pediatrics" [] ["cardiology"] "").selected_specialties.length
      ≤ max 5 ({} : Config).planner.top_k :=
  c8_planner_selected_length {}
    (fun _ => some (PlannerResult.mk "pediatrics" [] ["cardiology"] ""))
    { content := "r1" } { content := "r2" }
    (PlannerResult.mk "pediatrics" [] ["cardiology"] "") { content := "r1" }
    (by with_unfolding_all rfl)

/-! ### C7 — run_case agent budget -/

/-- A successful `run_specialists` returns at most one result per selected
id. -/
theorem run_specialists_ok_length
    {consult : ℕ → String → Except String (SpecialistReport × LLMResponse)}
    {selected : List String} {out : List (SpecialistReport × LLMResponse)}
    (h : run_specialists consult selected = .ok out) : out.length ≤ selected.length := by
  unfold run_specialists at h
  simp only at h
  split at h
  · exact absurd h (by simp)
  · simp only [Except.ok.injEq] at h
    rw [← h, specialistsLoop_eq]
    calc (List.filterMap _ (List.enumFrom 0 selected)).length
        ≤ (List.enumFrom 0 selected).length := List.length_filterMap_le _ _
      _ = selected.length := List.enumFrom_length

/-- C7: every `CaseTrace` returned normally by `run_case` satisfies the
agent budget `1 + len(specialist_traces) + 1 ≤ max_specialists + 2`: one
planner trace, at most `max_specialists` specialist traces, one aggregator
trace. -/
theorem c7_run_case_budget (config : Config) (pparse : String → Option PlannerResult)
    (presp1 presp2 : LLMResponse)
    (consult : ℕ → String → Except String (SpecialistReport × LLMResponse))
    (aparse : String → Option FinalDecision) (aresp1 aresp2 : LLMResponse)
    (question : String) (options : Option (List String)) (correct_answer : Option String)
    (final_decision : FinalDecision) (trace : CaseTrace)
    (h : run_case config pparse presp1 presp2 consult aparse aresp1 aresp2
        question options correct_answer = .ok (final_decision, trace)) :
    1 + trace.specialist_traces.length + 1 ≤ config.budgets.max_specialists + 2 := by
  unfold run_case at h
  split at h
  · exact absurd h (by simp)
  case h_2 planner_result planner_response heqp =>
    simp only at h
    split at h
    · exact absurd h (by simp)
    case h_2 specialist_results heqs =>
      split at h
      · exact absurd h (by simp)
      case h_2 fd aggregator_response heqa =>
        simp only [Except.ok.injEq, Prod.mk.injEq] at h
        obtain ⟨_, h2⟩ := h
        rw [← h2]
        simp only [List.length_map]
        have hlen := run_specialists_ok_length heqs
        rw [List.length_take] at hlen
        have : specialist_results.length ≤ config.budgets.max_specialists :=
          le_trans hlen (min_le_left _ _)
        omega

/-- C7 witness: a concrete successful case run with one specialist satisfies
the agent budget. -/
theorem c7_run_case_budget_witness :
    1 + ({ question := "q", options := none,
           planner_trace := { agent_type := .planner },
           specialist_traces := [{ agent_type := .specialist, specialty_id := some "cardiology" }],
           aggregator_trace := { agent_type := .aggregator },
           final_decision := { final_answer := "A", ordered_differential := [],
                               justification := "j" },
           total_tokens := none, correct_answer := none,
           predicted_answer := "A", is_correct := none } : CaseTrace).specialist_traces.length
      + 1 ≤ ({} : Config).budgets.max_specialists + 2 :=
  c7_run_case_budget {} (fun _ => some (PlannerResult.mk "pediatrics" [] ["cardiology"] ""))
    { content := "r1" } { content := "r2" }
    (fun _ _ => .ok ({ specialty_id := "cardiology", differential := [{ dx := "MI", p := 0.5 }] },
                     { content := "rs" }))
    (fun _ => some { final_answer := "A", ordered_differential := [], justification := "j" })
    { content := "ra" } { content := "rb" } "q" none none
    { final_answer := "A", ordered_differential := [], justification := "j" }
    { question := "q", options := none,
      planner_trace := { agent_type := .planner },
      specialist_traces := [{ agent_type := .specialist, specialty_id := some "cardiology" }],
      aggregator_trace := { agent_type := .aggregator },
      final_decision := { final_answer := "A", ordered_differential := [],
                          justification := "j" },
      total_tokens := none, correct_answer := none,
      predicted_answer := "A", is_correct := none }
    (by with_unfolding_all rfl)

/-! ### C6 — JSON extraction round-trip -/

/-- Whether the two-character sequence `p q` occurs in the list. -/
def hasSubPair (p q : Char) : List Char → Bool
  | [] => false
  | [_] => false
  | a :: b :: rest => (a = p && b = q) || hasSubPair p q (b :: rest)

/-- A pair that does not occur in `c :: rest` does not occur in `rest`. -/
theorem hasSubPair_cons_false {p q c : Char} {rest : List Char}
    (h : hasSubPair p q (c :: rest) = false) : hasSubPair p q rest = false := by
  cases rest with
  | nil => rw [hasSubPair]
  | cons d rest2 =>
    rw [hasSubPair] at h
    exact (Bool.or_eq_false_iff.mp h).2

/-- At any fuel, the line-comment pass is the identity on text with no `//`. -/
theorem removeLineCommentsF_eq_self (fuel : ℕ) :
    ∀ {l : List Char}, hasSubPair '/' '/' l = false → removeLineCommentsF fuel l = l := by
  induction fuel with
  | zero =>
    intro l _
    match l with
    | [] => rfl
    | [c] => rfl
    | a :: b :: rest => rfl
  | succ n ih =>
    intro l h
    match l with
    | [] => rfl
    | [c] => rfl
    | a :: b :: rest =>
      rw [hasSubPair] at h
      have hab := (Bool.or_eq_false_iff.mp h).1
      have hrest := (Bool.or_eq_false_iff.mp h).2
      rw [show removeLineCommentsF (n + 1) (a :: b :: rest) =
            (if a = '/' && b = '/' then
              removeLineCommentsF n (rest.dropWhile (fun c => c ≠ '\n'))
            else a :: removeLineCommentsF n (b :: rest)) from rfl,
        hab, if_neg (show ¬(false = true) from by simp), ih hrest]

/-- Line-comment removal is the identity on text with no `//`. -/
theorem removeLineComments_eq_self {l : List Char}
    (h : hasSubPair '/' '/' l = false) : removeLineComments l = l :=
  removeLineCommentsF_eq_self (l.length + 1) h

/-- At any fuel, the block-comment pass is the identity on text with no `/*`. -/
theorem removeBlockCommentsF_eq_self (fuel : ℕ) :
    ∀ {l : List Char}, hasSubPair '/' '*' l = false → removeBlockCommentsF fuel l = l := by
  induction fuel with
  | zero =>
    intro l _
    match l with
    | [] => rfl
    | [c] => rfl
    | a :: b :: rest => rfl
  | succ n ih =>
    intro l h
    match l with
    | [] => rfl
    | [c] => rfl
    | a :: b :: rest =>
      rw [hasSubPair] at h
      have hab := (Bool.or_eq_false_iff.mp h).1
      have hrest := (Bool.or_eq_false_iff.mp h).2
      rw [show removeBlockCommentsF (n + 1) (a :: b :: rest) =
            (if a = '/' && b = '*' then
              (match dropThroughBlockClose rest with
              | some rem => removeBlockCommentsF n rem
              | none => a :: b :: rest)
            else a :: removeBlockCommentsF n (b :: rest)) from rfl,
        hab, if_neg (show ¬(false = true) from by simp), ih hrest]

/-- Block-comment removal is the identity on text with no `/*`. -/
theorem removeBlockComments_eq_self {l : List Char}
    (h : hasSubPair '/' '*' l = false) : removeBlockComments l = l :=
  removeBlockCommentsF_eq_self (l.length + 1) h

/-- `dropWhile` over an append whose left part is not fully dropped. -/
theorem dropWhile_append_of_ne_nil {p : Char → Bool} :
    ∀ {a : List Char} (b : List Char), a.dropWhile p ≠ [] →
      (a ++ b).dropWhile p = a.dropWhile p ++ b
  | [], b => by simp
  | c :: a, b => by
    intro h
    by_cases hc : p c = true
    · rw [List.cons_append, List.dropWhile_cons_of_pos hc, List.dropWhile_cons_of_pos hc]
      rw [List.dropWhile_cons_of_pos hc] at h
      exact dropWhile_append_of_ne_nil b h
    · rw [List.cons_append, List.dropWhile_cons_of_neg (by simpa using hc),
        List.dropWhile_cons_of_neg (by simpa using hc), List.cons_append]

/-- `dropWhile` over an append whose left part is fully dropped. -/
theorem dropWhile_append_of_all {p : Char → Bool} :
    ∀ {a : List Char} (b : List Char), (∀ x ∈ a, p x = true) →
      (a ++ b).dropWhile p = b.dropWhile p
  | [], b => by simp
  | c :: a, b => by
    intro h
    rw [List.cons_append, List.dropWhile_cons_of_pos (h c (by simp))]
    exact dropWhile_append_of_all b (fun x hx => h x (by simp [hx]))

/-- Elements of a `dropWhile` come from the original list. -/
theorem mem_of_mem_dropWhile {p : Char → Bool} :
    ∀ {l : List Char} {c : Char}, c ∈ l.dropWhile p → c ∈ l
  | [], c => by simp
  | a :: l, c => by
    intro h
    by_cases ha : p a = true
    · rw [List.dropWhile_cons_of_pos ha] at h
      exact List.mem_cons_of_mem a (mem_of_mem_dropWhile h)
    · rwa [List.dropWhile_cons_of_neg (by simpa using ha)] at h

/-- The head surviving a `dropWhile` fails the predicate. -/
theorem head_dropWhile_not {p : Char → Bool} :
    ∀ {l : List Char} {d : Char} {r : List Char}, l.dropWhile p = d :: r → p d = false
  | [], d, r => by simp
  | a :: l, d, r => by
    intro h
    by_cases ha : p a = true
    · rw [List.dropWhile_cons_of_pos ha] at h
      exact head_dropWhile_not h
    · rw [List.dropWhile_cons_of_neg (by simpa using ha)] at h
      cases h
      simpa using ha

/-- `lstrip` keeps a list whose head is not whitespace. -/
theorem pyLStrip_cons_of_nonspace {c : Char} {l : List Char} (h : isPySpace c = false) :
    pyLStrip (c :: l) = c :: l := by
  rw [pyLStrip, List.dropWhile_cons_of_neg (by simp [h])]

/-- `rstrip` drops an all-whitespace suffix. -/
theorem pyRStrip_append_all_space {x w : List Char} (h : ∀ c ∈ w, isPySpace c = true) :
    pyRStrip (x ++ w) = pyRStrip x := by
  rw [pyRStrip, pyRStrip, List.reverse_append,
    dropWhile_append_of_all _ (fun c hc => h c (List.mem_reverse.mp hc))]

/-- `rstrip` of an append stops inside a right part that is not all
whitespace. -/
theorem pyRStrip_append_of_ne_nil {x w : List Char} (h : pyRStrip w ≠ []) :
    pyRStrip (x ++ w) = x ++ pyRStrip w := by
  have hw : w.reverse.dropWhile isPySpace ≠ [] := by
    intro habs
    apply h
    rw [pyRStrip, habs, List.reverse_nil]
  rw [pyRStrip, List.reverse_append, dropWhile_append_of_ne_nil _ hw, List.reverse_append,
    List.reverse_reverse, pyRStrip]

/-- `rstrip` keeps a list ending in a non-whitespace character. -/
theorem pyRStrip_append_last_nonspace {x : List Char} {c : Char} (h : isPySpace c = false) :
    pyRStrip (x ++ [c]) = x ++ [c] := by
  rw [pyRStrip, List.reverse_append]
  simp only [List.reverse_cons, List.reverse_nil, List.nil_append, List.singleton_append]
  rw [List.dropWhile_cons_of_neg (by simp [h])]
  simp

/-- `rstrip` is empty exactly on all-whitespace input. -/
theorem pyRStrip_eq_nil_iff {w : List Char} :
    pyRStrip w = [] ↔ ∀ c ∈ w, isPySpace c = true := by
  rw [pyRStrip, List.reverse_eq_nil_iff, List.dropWhile_eq_nil_iff]
  constructor
  · intro h c hc
    exact h c (List.mem_reverse.mpr hc)
  · intro h c hc
    exact h c (List.mem_reverse.mp hc)

/-- Elements of an `rstrip` come from the original list. -/
theorem mem_of_mem_pyRStrip {w : List Char} {c : Char} (h : c ∈ pyRStrip w) : c ∈ w := by
  rw [pyRStrip, List.mem_reverse] at h
  exact List.mem_reverse.mp (mem_of_mem_dropWhile h)

/-- A non-empty `rstrip` ends in a non-whitespace character of the input. -/
theorem pyRStrip_structure {w : List Char} (h : pyRStrip w ≠ []) :
    ∃ y d, pyRStrip w = y ++ [d] ∧ isPySpace d = false ∧ d ∈ w := by
  cases hd : w.reverse.dropWhile isPySpace with
  | nil =>
    exfalso
    apply h
    rw [pyRStrip, hd, List.reverse_nil]
  | cons d r =>
    refine ⟨r.reverse, d, ?_, head_dropWhile_not hd, ?_⟩
    · rw [pyRStrip, hd, List.reverse_cons]
    · have : d ∈ w.reverse.dropWhile isPySpace := by
        rw [hd]
        simp
      exact List.mem_reverse.mp (mem_of_mem_dropWhile this)

/-- A pattern is its own prefix in any extension. -/
theorem startsWithCh_append_self : ∀ (p rest : List Char), startsWithCh p (p ++ rest) = true
  | [], rest => rfl
  | c :: p, rest => by
    rw [List.cons_append, startsWithCh]
    simp [startsWithCh_append_self p rest]

/-- A non-empty pattern is not a prefix of a list with a different head. -/
theorem startsWithCh_cons_of_ne {p c : Char} {ps cs : List Char} (h : p ≠ c) :
    startsWithCh (p :: ps) (c :: cs) = false := by
  rw [startsWithCh]
  simp [h]

/-- First-index search: a missing character gives `none`. -/
theorem findCharIdx_eq_none {c : Char} :
    ∀ {l : List Char}, (∀ x ∈ l, x ≠ c) → findCharIdx c l = none
  | [], _ => rfl
  | a :: l, h => by
    rw [findCharIdx, if_neg (h a (by simp)), findCharIdx_eq_none (fun x hx => h x (by simp [hx]))]
    rfl

/-- First-index search over an append whose left part misses the character. -/
theorem findCharIdx_append_left_none {c : Char} :
    ∀ {a : List Char} (b : List Char), (∀ x ∈ a, x ≠ c) →
      findCharIdx c (a ++ b) = (findCharIdx c b).map (fun i => i + a.length)
  | [], b => by
    intro _
    cases h : findCharIdx c b <;> simp [h]
  | x :: a, b => by
    intro h
    rw [List.cons_append, findCharIdx, if_neg (h x (by simp)),
      findCharIdx_append_left_none b (fun y hy => h y (by simp [hy]))]
    cases hb : findCharIdx c b <;> simp [hb] <;> omega

/-- First-index search finds an immediate match. -/
theorem findCharIdx_cons_self {c : Char} {l : List Char} : findCharIdx c (c :: l) = some 0 := by
  rw [findCharIdx, if_pos rfl]

/-- A found index is inside the list. -/
theorem findCharIdx_lt_length {c : Char} :
    ∀ {l : List Char} {i : ℕ}, findCharIdx c l = some i → i < l.length
  | [], i => by simp [findCharIdx]
  | a :: l, i => by
    intro h
    rw [findCharIdx] at h
    by_cases ha : a = c
    · rw [if_pos ha] at h
      cases h
      simp
    · rw [if_neg ha] at h
      cases hf : findCharIdx c l with
      | none => rw [hf] at h; cases h
      | some j =>
        rw [hf] at h
        simp at h
        have := findCharIdx_lt_length hf
        simp only [List.length_cons]
        omega

/-- `str.find` of `{` on `a ++ '{' :: rest` with no `{` in `a` is
`a.length`. -/
theorem pyFind_append_cons {c : Char} {a rest : List Char} (h : ∀ x ∈ a, x ≠ c) :
    pyFind c (a ++ c :: rest) = (a.length : ℤ) := by
  rw [pyFind, findCharIdx_append_left_none _ h, findCharIdx_cons_self]
  show ((0 + a.length : ℕ) : ℤ) = (a.length : ℤ)
  omega

/-- `str.rfind` ignores a right part missing the character. -/
theorem pyRFind_append_right_none {ch : Char} {x b : List Char} (hb : ∀ c ∈ b, c ≠ ch) :
    pyRFind ch (x ++ b) = pyRFind ch x := by
  rw [pyRFind, pyRFind, List.reverse_append,
    findCharIdx_append_left_none _ (fun y hy => hb y (List.mem_reverse.mp hy))]
  cases hf : findCharIdx ch x.reverse with
  | none => rfl
  | some i =>
    have hi : i < x.length := by
      have := findCharIdx_lt_length hf
      simpa using this
    show (((x ++ b).length - 1 - (i + b.reverse.length) : ℕ) : ℤ) = ((x.length - 1 - i : ℕ) : ℤ)
    rw [List.length_append, List.length_reverse]
    congr 1
    omega

/-- `str.rfind` of the final character of a list. -/
theorem pyRFind_append_last {ch : Char} {x : List Char} :
    pyRFind ch (x ++ [ch]) = (x.length : ℤ) := by
  rw [pyRFind, List.reverse_append]
  simp only [List.reverse_cons, List.reverse_nil, List.nil_append, List.singleton_append]
  rw [findCharIdx_cons_self]
  simp

/-- `str.rfind` returns an index below the length (or `-1`). -/
theorem pyRFind_lt_length {ch : Char} {l : List Char} : pyRFind ch l < (l.length : ℤ) := by
  rw [pyRFind]
  cases hf : findCharIdx ch l.reverse with
  | none =>
    show (-1 : ℤ) < (l.length : ℤ)
    omega
  | some i =>
    have := findCharIdx_lt_length hf
    rw [List.length_reverse] at this
    show ((l.length - 1 - i : ℕ) : ℤ) < (l.length : ℤ)
    omega

/-- The start-slicing step drops everything before a brace-headed tail when
the prefix contains no `{`. -/
theorem sliceStart_sandwich (a rest : List Char) (ha : ∀ c ∈ a, c ≠ '{') :
    sliceStart (a ++ '{' :: rest) = '{' :: rest := by
  have hfind : pyFind '{' (a ++ '{' :: rest) = (a.length : ℤ) := pyFind_append_cons ha
  unfold sliceStart
  simp only
  rw [hfind]
  by_cases hA : a = []
  · subst hA
    rw [if_neg (by simp), if_neg (by simp)]
    simp
  · have hlen : (0 : ℤ) < (a.length : ℤ) := by
      cases a with
      | nil => exact absurd rfl hA
      | cons x xs => simp
    rw [if_pos hlen, Int.toNat_natCast]
    exact List.drop_left _ _

/-- The end-slicing step keeps exactly a brace-terminated body when the
suffix contains no `}`/`]`. -/
theorem sliceEnd_sandwich (mid b : List Char) (hb : ∀ c ∈ b, c ≠ '}' ∧ c ≠ ']') :
    sliceEnd (('{' :: (mid ++ ['}'])) ++ b) = '{' :: (mid ++ ['}']) := by
  have hsplit : ('{' :: (mid ++ ['}'])) ++ b = (('{' :: mid) ++ ['}']) ++ b := by simp
  have hrfind1 : pyRFind '}' (('{' :: (mid ++ ['}'])) ++ b) = ((mid.length + 1 : ℕ) : ℤ) := by
    rw [hsplit, pyRFind_append_right_none (fun c hc => (hb c hc).1), pyRFind_append_last]
    simp
  have hrfind2 : pyRFind ']' (('{' :: (mid ++ ['}'])) ++ b) ≤ ((mid.length + 1 : ℕ) : ℤ) := by
    rw [pyRFind_append_right_none (fun c hc => (hb c hc).2)]
    have h2 := @pyRFind_lt_length ']' ('{' :: (mid ++ ['}']))
    have h3 : ('{' :: (mid ++ ['}'])).length = mid.length + 2 := by simp
    rw [h3] at h2
    push_cast at h2 ⊢
    omega
  have hmax : max (pyRFind '}' (('{' :: (mid ++ ['}'])) ++ b))
      (pyRFind ']' (('{' :: (mid ++ ['}'])) ++ b)) = ((mid.length + 1 : ℕ) : ℤ) := by
    rw [hrfind1]
    exact max_eq_left hrfind2
  unfold sliceEnd
  simp only
  rw [hmax, if_pos (by push_cast; omega), Int.toNat_natCast,
    show mid.length + 1 + 1 = ('{' :: (mid ++ ['}'])).length from by simp]
  exact List.take_left _ _

/-- The slicing step recovers a brace-delimited JSON body exactly, whatever
precedes it (without `{`) and follows it (without `}`/`]`). -/
theorem sliceToJson_sandwich (a mid b : List Char)
    (ha : ∀ c ∈ a, c ≠ '{')
    (hb : ∀ c ∈ b, c ≠ '}' ∧ c ≠ ']') :
    sliceToJson (a ++ ('{' :: (mid ++ ['}'])) ++ b) = '{' :: (mid ++ ['}']) := by
  rw [sliceToJson, List.append_assoc,
    show ('{' :: (mid ++ ['}'])) ++ b = '{' :: (mid ++ ['}'] ++ b) from rfl,
    sliceStart_sandwich a _ ha,
    show '{' :: (mid ++ ['}'] ++ b) = ('{' :: (mid ++ ['}'])) ++ b from by simp]
  exact sliceEnd_sandwich mid b hb

/-- The backtick character (spelled by code to keep it out of literals). -/
def backtickChar : Char := Char.ofNat 96

/-- `lstrip` consumes a leading whitespace character. -/
theorem pyLStrip_cons_of_space {c : Char} {l : List Char} (h : isPySpace c = true) :
    pyLStrip (c :: l) = pyLStrip l := by
  rw [pyLStrip, pyLStrip, List.dropWhile_cons_of_pos h]

/-- A list ending in the fence ends with the fence. -/
theorem endsWithCh_append_self (p x : List Char) : endsWithCh p (x ++ p) = true := by
  rw [endsWithCh, List.reverse_append]
  exact startsWithCh_append_self _ _

/-- A list whose final character is not a backtick does not end with the
fence. -/
theorem endsWithCh_fence_last_ne {x : List Char} {d : Char} (h : d ≠ backtickChar) :
    endsWithCh ("```".toList) (x ++ [d]) = false := by
  rw [endsWithCh, List.reverse_append,
    show ([d] : List Char).reverse = [d] from rfl,
    show ("```".toList).reverse = backtickChar :: "``".toList from by decide,
    List.singleton_append]
  exact startsWithCh_cons_of_ne (fun habs => h habs.symm)

/-- Removing the final `\x60\x60\x60` via `text[:-3]`. -/
theorem take_fence_sub (z : List Char) :
    (z ++ "```".toList).take ((z ++ "```".toList).length - 3) = z := by
  have h : (z ++ "```".toList).length - 3 = z.length := by simp
  rw [h]
  exact List.take_left _ _

/-- `strip` of a non-whitespace-headed list followed by an all-whitespace
suffix keeps exactly the list (whose own last character is non-whitespace). -/
theorem pyStrip_append_ws {c d : Char} {cs z w : List Char} (hc : isPySpace c = false)
    (hw : ∀ x ∈ w, isPySpace x = true) (hzd : c :: cs = z ++ [d])
    (hd : isPySpace d = false) :
    pyStrip ((c :: cs) ++ w) = c :: cs := by
  rw [pyStrip, List.cons_append, pyLStrip_cons_of_nonspace hc, ← List.cons_append,
    pyRStrip_append_all_space hw, hzd, pyRStrip_append_last_nonspace hd]

/-- `strip` of a non-whitespace-headed list followed by a not-all-whitespace
suffix right-strips only the suffix. -/
theorem pyStrip_append_tail {c : Char} {cs w : List Char} (hc : isPySpace c = false)
    (hw : pyRStrip w ≠ []) :
    pyStrip ((c :: cs) ++ w) = (c :: cs) ++ pyRStrip w := by
  rw [pyStrip, List.cons_append, pyLStrip_cons_of_nonspace hc, ← List.cons_append,
    pyRStrip_append_of_ne_nil hw]

/-- Core of the C6 round-trip: on a string of the form
`preamble ++ "```json\n" ++ j ++ "\n```" ++ trailing` — with a preamble that
does not start with whitespace or a backtick and contains no `{`, a trailing
text without `}`, `]` or backticks, and a brace-delimited `j` containing no
`//` or `/*` — the extraction surgery returns exactly `j`. -/
theorem extractJsonText_fenced (pre mid trail : List Char)
    (hpre : ∀ c cs, pre = c :: cs → isPySpace c = false ∧ c ≠ backtickChar)
    (hpreB : ∀ c ∈ pre, c ≠ '{')
    (htrail : ∀ c ∈ trail, c ≠ '}' ∧ c ≠ ']' ∧ c ≠ backtickChar)
    (hline : hasSubPair '/' '/' ('{' :: (mid ++ ['}'])) = false)
    (hblock : hasSubPair '/' '*' ('{' :: (mid ++ ['}'])) = false) :
    extractJsonText
        (pre ++ ("```json\n".toList ++ (('{' :: (mid ++ ['}'])) ++ ("\n```".toList ++ trail))))
      = '{' :: (mid ++ ['}']) := by
  have hfo_noBrace : ∀ c ∈ "```json\n".toList, c ≠ '{' := by decide
  have hfc_noClose : ∀ c ∈ "\n```".toList, c ≠ '}' ∧ c ≠ ']' := by decide
  have hback : isPySpace backtickChar = false := by decide
  have hfinish : ∀ (u a b : List Char), u = a ++ (('{' :: (mid ++ ['}'])) ++ b) →
      (∀ c ∈ a, c ≠ '{') → (∀ c ∈ b, c ≠ '}' ∧ c ≠ ']') →
      removeBlockComments (removeLineComments (sliceToJson u)) = '{' :: (mid ++ ['}']) := by
    intro u a b hu ha hb
    rw [hu, show a ++ (('{' :: (mid ++ ['}'])) ++ b) = a ++ ('{' :: (mid ++ ['}'])) ++ b from
      (List.append_assoc _ _ _).symm, sliceToJson_sandwich a mid b ha hb,
      removeLineComments_eq_self hline, removeBlockComments_eq_self hblock]
  cases pre with
  | nil =>
    by_cases htws : ∀ x ∈ trail, isPySpace x = true
    · -- no preamble, all-whitespace trailing text
      have h1 : pyStrip
          ([] ++ ("```json\n".toList ++ (('{' :: (mid ++ ['}'])) ++ ("\n```".toList ++ trail))))
          = "```json\n".toList ++ (('{' :: (mid ++ ['}'])) ++ "\n```".toList) := by
        rw [show ([] : List Char) ++
            ("```json\n".toList ++ (('{' :: (mid ++ ['}'])) ++ ("\n```".toList ++ trail)))
            = (backtickChar :: ("``json\n".toList ++ (('{' :: (mid ++ ['}'])) ++ "\n```".toList)))
              ++ trail from by
          rw [show "```json\n".toList = backtickChar :: "``json\n".toList from by decide]
          simp]
        rw [pyStrip_append_ws hback htws
          (show backtickChar :: ("``json\n".toList ++ (('{' :: (mid ++ ['}'])) ++ "\n```".toList))
            = (backtickChar :: ("``json\n".toList ++ (('{' :: (mid ++ ['}'])) ++ "\n``".toList)))
              ++ [backtickChar] from by
            rw [show "\n```".toList = "\n``".toList ++ [backtickChar] from by decide]
            simp) hback]
        rw [show "```json\n".toList = backtickChar :: "``json\n".toList from by decide]
        rfl
      have h2 : stripFences
          ("```json\n".toList ++ (('{' :: (mid ++ ['}'])) ++ "\n```".toList))
          = '\n' :: (('{' :: (mid ++ ['}'])) ++ ['\n']) := by
        rw [stripFences]
        rw [show "```json\n".toList ++ (('{' :: (mid ++ ['}'])) ++ "\n```".toList)
            = "```json".toList ++ ('\n' :: (('{' :: (mid ++ ['}'])) ++ "\n```".toList)) from by
          rw [show "```json\n".toList = "```json".toList ++ ['\n'] from by decide]
          simp]
        rw [startsWithCh_append_self, if_pos rfl,
          show (7 : ℕ) = ("```json".toList).length from rfl, List.drop_left]
        rw [show '\n' :: (('{' :: (mid ++ ['}'])) ++ "\n```".toList)
            = ('\n' :: (('{' :: (mid ++ ['}'])) ++ ['\n'])) ++ "```".toList from by
          rw [show "\n```".toList = ['\n'] ++ "```".toList from by decide]
          simp]
        rw [endsWithCh_append_self, if_pos rfl, take_fence_sub]
      have h3 : pyStrip ('\n' :: (('{' :: (mid ++ ['}'])) ++ ['\n']))
          = '{' :: (mid ++ ['}']) := by
        rw [pyStrip, pyLStrip_cons_of_space (by decide),
          show ('{' :: (mid ++ ['}'])) ++ ['\n'] = '{' :: ((mid ++ ['}']) ++ ['\n']) from rfl,
          pyLStrip_cons_of_nonspace (by decide),
          show '{' :: ((mid ++ ['}']) ++ ['\n']) = ('{' :: (mid ++ ['}'])) ++ ['\n'] from rfl,
          pyRStrip_append_all_space (by decide),
          show '{' :: (mid ++ ['}']) = ('{' :: mid) ++ ['}'] from by simp,
          pyRStrip_append_last_nonspace (by decide)]
      rw [extractJsonText, h1, h2, h3]
      exact hfinish _ [] [] (by simp) (by simp) (by simp)
    · -- no preamble, trailing text with visible characters
      have hne : pyRStrip trail ≠ [] := fun habs => htws (pyRStrip_eq_nil_iff.mp habs)
      obtain ⟨y, d, hyd, hdns, hdmem⟩ := pyRStrip_structure hne
      obtain ⟨hd1, hd2, hd3⟩ := htrail d hdmem
      have h1 : pyStrip
          ([] ++ ("```json\n".toList ++ (('{' :: (mid ++ ['}'])) ++ ("\n```".toList ++ trail))))
          = "```json\n".toList ++ (('{' :: (mid ++ ['}'])) ++ ("\n```".toList ++ pyRStrip trail)) := by
        rw [show ([] : List Char) ++
            ("```json\n".toList ++ (('{' :: (mid ++ ['}'])) ++ ("\n```".toList ++ trail)))
            = (backtickChar :: ("``json\n".toList ++ (('{' :: (mid ++ ['}'])) ++ "\n```".toList)))
              ++ trail from by
          rw [show "```json\n".toList = backtickChar :: "``json\n".toList from by decide]
          simp]
        rw [pyStrip_append_tail hback hne]
        rw [show "```json\n".toList = backtickChar :: "``json\n".toList from by decide]
        simp
      have h2 : stripFences
          ("```json\n".toList ++ (('{' :: (mid ++ ['}'])) ++ ("\n```".toList ++ pyRStrip trail)))
          = '\n' :: (('{' :: (mid ++ ['}'])) ++ ("\n```".toList ++ pyRStrip trail)) := by
        rw [stripFences]
        rw [show "```json\n".toList ++ (('{' :: (mid ++ ['}'])) ++ ("\n```".toList ++ pyRStrip trail))
            = "```json".toList
              ++ ('\n' :: (('{' :: (mid ++ ['}'])) ++ ("\n```".toList ++ pyRStrip trail))) from by
          rw [show "```json\n".toList = "```json".toList ++ ['\n'] from by decide]
          simp]
        rw [startsWithCh_append_self, if_pos rfl,
          show (7 : ℕ) = ("```json".toList).length from rfl, List.drop_left]
        rw [show '\n' :: (('{' :: (mid ++ ['}'])) ++ ("\n```".toList ++ pyRStrip trail))
            = ('\n' :: (('{' :: (mid ++ ['}'])) ++ ("\n```".toList ++ y))) ++ [d] from by
          rw [hyd]
          simp]
        rw [endsWithCh_fence_last_ne hd3, if_neg (by simp)]
      have h3 : pyStrip ('\n' :: (('{' :: (mid ++ ['}'])) ++ ("\n```".toList ++ pyRStrip trail)))
          = ('{' :: (mid ++ ['}'])) ++ ("\n```".toList ++ pyRStrip trail) := by
        rw [pyStrip, pyLStrip_cons_of_space (by decide),
          show ('{' :: (mid ++ ['}'])) ++ ("\n```".toList ++ pyRStrip trail)
            = '{' :: ((mid ++ ['}']) ++ ("\n```".toList ++ pyRStrip trail)) from rfl,
          pyLStrip_cons_of_nonspace (by decide),
          show '{' :: ((mid ++ ['}']) ++ ("\n```".toList ++ pyRStrip trail))
            = ('{' :: ((mid ++ ['}']) ++ ("\n```".toList ++ y))) ++ [d] from by
          rw [hyd]
          simp,
          pyRStrip_append_last_nonspace hdns]
      rw [extractJsonText, h1, h2, h3]
      refine hfinish _ [] ("\n```".toList ++ pyRStrip trail) (by simp) (by simp) ?_
      intro x hx
      rcases List.mem_append.mp hx with hxm | hxm
      · exact hfc_noClose x hxm
      · obtain ⟨p1, p2, _⟩ := htrail x (mem_of_mem_pyRStrip hxm)
        exact ⟨p1, p2⟩
  | cons c cs =>
    obtain ⟨hc1, hc2⟩ := hpre c cs rfl
    have hpreB' : ∀ x ∈ c :: cs, x ≠ '{' := hpreB
    have hsw1 : startsWithCh ("```json".toList) (c ::
        (cs ++ ("```json\n".toList ++ (('{' :: (mid ++ ['}'])) ++ "\n```".toList)))) = false := by
      rw [show "```json".toList = backtickChar :: "``json".toList from by decide]
      exact startsWithCh_cons_of_ne (fun habs => hc2 habs.symm)
    by_cases htws : ∀ x ∈ trail, isPySpace x = true
    · -- preamble, all-whitespace trailing text
      have h1 : pyStrip
          ((c :: cs) ++ ("```json\n".toList ++ (('{' :: (mid ++ ['}'])) ++ ("\n```".toList ++ trail))))
          = (c :: cs) ++ ("```json\n".toList ++ (('{' :: (mid ++ ['}'])) ++ "\n```".toList)) := by
        rw [show (c :: cs) ++
            ("```json\n".toList ++ (('{' :: (mid ++ ['}'])) ++ ("\n```".toList ++ trail)))
            = (c :: (cs ++ ("```json\n".toList ++ (('{' :: (mid ++ ['}'])) ++ "\n```".toList))))
              ++ trail from by simp]
        rw [pyStrip_append_ws hc1 htws
          (show c :: (cs ++ ("```json\n".toList ++ (('{' :: (mid ++ ['}'])) ++ "\n```".toList)))
            = (c :: (cs ++ ("```json\n".toList ++ (('{' :: (mid ++ ['}'])) ++ "\n``".toList))))
              ++ [backtickChar] from by
            rw [show "\n```".toList = "\n``".toList ++ [backtickChar] from by decide]
            simp) hback]
        rfl
      have h2 : stripFences
          ((c :: cs) ++ ("```json\n".toList ++ (('{' :: (mid ++ ['}'])) ++ "\n```".toList)))
          = (c :: cs) ++ ("```json\n".toList ++ (('{' :: (mid ++ ['}'])) ++ ['\n'])) := by
        rw [stripFences]
        rw [show (c :: cs) ++ ("```json\n".toList ++ (('{' :: (mid ++ ['}'])) ++ "\n```".toList))
            = c :: (cs ++ ("```json\n".toList ++ (('{' :: (mid ++ ['}'])) ++ "\n```".toList)))
            from rfl]
        have hsw3 : startsWithCh ("```".toList)
            (c :: (cs ++ ("```json\n".toList ++ (('{' :: (mid ++ ['}'])) ++ "\n```".toList))))
            = false := by
          rw [show "```".toList = backtickChar :: "``".toList from by decide]
          exact startsWithCh_cons_of_ne (fun habs => hc2 habs.symm)
        rw [hsw1, if_neg (show ¬(false = true) from by simp), hsw3, if_neg (show ¬(false = true) from by simp)]
        rw [show c :: (cs ++ ("```json\n".toList ++ (('{' :: (mid ++ ['}'])) ++ "\n```".toList)))
            = ((c :: cs) ++ ("```json\n".toList ++ (('{' :: (mid ++ ['}'])) ++ ['\n'])))
              ++ "```".toList from by
          rw [show "\n```".toList = ['\n'] ++ "```".toList from by decide]
          simp]
        rw [endsWithCh_append_self, if_pos rfl, take_fence_sub]
      have h3 : pyStrip
          ((c :: cs) ++ ("```json\n".toList ++ (('{' :: (mid ++ ['}'])) ++ ['\n'])))
          = (c :: cs) ++ ("```json\n".toList ++ ('{' :: (mid ++ ['}']))) := by
        rw [show (c :: cs) ++ ("```json\n".toList ++ (('{' :: (mid ++ ['}'])) ++ ['\n']))
            = (c :: (cs ++ ("```json\n".toList ++ ('{' :: (mid ++ ['}']))))) ++ ['\n'] from by
          simp]
        rw [pyStrip_append_ws hc1 (by decide)
          (show c :: (cs ++ ("```json\n".toList ++ ('{' :: (mid ++ ['}']))))
            = (c :: (cs ++ ("```json\n".toList ++ ('{' :: mid)))) ++ ['}'] from by simp)
          (by decide)]
        rfl
      rw [extractJsonText, h1, h2, h3]
      refine hfinish _ ((c :: cs) ++ "```json\n".toList) [] (by simp) ?_ (by simp)
      intro x hx
      rcases List.mem_append.mp hx with hxm | hxm
      · exact hpreB' x hxm
      · exact hfo_noBrace x hxm
    · -- preamble, trailing text with visible characters
      have hne : pyRStrip trail ≠ [] := fun habs => htws (pyRStrip_eq_nil_iff.mp habs)
      obtain ⟨y, d, hyd, hdns, hdmem⟩ := pyRStrip_structure hne
      obtain ⟨hd1, hd2, hd3⟩ := htrail d hdmem
      have h1 : pyStrip
          ((c :: cs) ++ ("```json\n".toList ++ (('{' :: (mid ++ ['}'])) ++ ("\n```".toList ++ trail))))
          = (c :: cs)
            ++ ("```json\n".toList ++ (('{' :: (mid ++ ['}'])) ++ ("\n```".toList ++ pyRStrip trail))) := by
        rw [show (c :: cs) ++
            ("```json\n".toList ++ (('{' :: (mid ++ ['}'])) ++ ("\n```".toList ++ trail)))
            = (c :: (cs ++ ("```json\n".toList ++ (('{' :: (mid ++ ['}'])) ++ "\n```".toList))))
              ++ trail from by simp]
        rw [pyStrip_append_tail hc1 hne]
        simp
      have hsw2 : startsWithCh ("```json".toList) (c :: (cs
          ++ ("```json\n".toList ++ (('{' :: (mid ++ ['}']))
            ++ ("\n```".toList ++ pyRStrip trail))))) = false := by
        rw [show "```json".toList = backtickChar :: "``json".toList from by decide]
        exact startsWithCh_cons_of_ne (fun habs => hc2 habs.symm)
      have h2 : stripFences
          ((c :: cs)
            ++ ("```json\n".toList ++ (('{' :: (mid ++ ['}'])) ++ ("\n```".toList ++ pyRStrip trail))))
          = (c :: cs)
            ++ ("```json\n".toList ++ (('{' :: (mid ++ ['}'])) ++ ("\n```".toList ++ pyRStrip trail))) := by
        rw [stripFences]
        rw [show (c :: cs)
            ++ ("```json\n".toList ++ (('{' :: (mid ++ ['}'])) ++ ("\n```".toList ++ pyRStrip trail)))
            = c :: (cs
              ++ ("```json\n".toList ++ (('{' :: (mid ++ ['}'])) ++ ("\n```".toList ++ pyRStrip trail))))
            from rfl]
        have hsw4 : startsWithCh ("```".toList) (c :: (cs
            ++ ("```json\n".toList ++ (('{' :: (mid ++ ['}']))
              ++ ("\n```".toList ++ pyRStrip trail))))) = false := by
          rw [show "```".toList = backtickChar :: "``".toList from by decide]
          exact startsWithCh_cons_of_ne (fun habs => hc2 habs.symm)
        rw [hsw2, if_neg (show ¬(false = true) from by simp), hsw4, if_neg (show ¬(false = true) from by simp)]
        rw [show c :: (cs
              ++ ("```json\n".toList ++ (('{' :: (mid ++ ['}'])) ++ ("\n```".toList ++ pyRStrip trail))))
            = (c :: (cs
              ++ ("```json\n".toList ++ (('{' :: (mid ++ ['}'])) ++ ("\n```".toList ++ y))))) ++ [d]
            from by
          rw [hyd]
          simp]
        rw [endsWithCh_fence_last_ne hd3, if_neg (show ¬(false = true) from by simp)]
      have h3 : pyStrip
          ((c :: cs)
            ++ ("```json\n".toList ++ (('{' :: (mid ++ ['}'])) ++ ("\n```".toList ++ pyRStrip trail))))
          = (c :: cs)
            ++ ("```json\n".toList ++ (('{' :: (mid ++ ['}'])) ++ ("\n```".toList ++ pyRStrip trail))) := by
        rw [show (c :: cs)
            ++ ("```json\n".toList ++ (('{' :: (mid ++ ['}'])) ++ ("\n```".toList ++ pyRStrip trail)))
            = (c :: (cs
              ++ ("```json\n".toList ++ (('{' :: (mid ++ ['}'])) ++ ("\n```".toList ++ y))))) ++ [d]
            from by
          rw [hyd]
          simp]
        rw [pyStrip,
          show (c :: (cs
              ++ ("```json\n".toList ++ (('{' :: (mid ++ ['}'])) ++ ("\n```".toList ++ y))))) ++ [d]
            = c :: ((cs
              ++ ("```json\n".toList ++ (('{' :: (mid ++ ['}'])) ++ ("\n```".toList ++ y)))) ++ [d])
            from rfl,
          pyLStrip_cons_of_nonspace hc1,
          show c :: ((cs
              ++ ("```json\n".toList ++ (('{' :: (mid ++ ['}'])) ++ ("\n```".toList ++ y)))) ++ [d])
            = (c :: (cs
              ++ ("```json\n".toList ++ (('{' :: (mid ++ ['}'])) ++ ("\n```".toList ++ y))))) ++ [d]
            from rfl,
          pyRStrip_append_last_nonspace hdns]
      rw [extractJsonText, h1, h2, h3]
      refine hfinish _ ((c :: cs) ++ "```json\n".toList) ("\n```".toList ++ pyRStrip trail)
        (by simp) ?_ ?_
      · intro x hx
        rcases List.mem_append.mp hx with hxm | hxm
        · exact hpreB' x hxm
        · exact hfo_noBrace x hxm
      · intro x hx
        rcases List.mem_append.mp hx with hxm | hxm
        · exact hfc_noClose x hxm
        · obtain ⟨p1, p2, _⟩ := htrail x (mem_of_mem_pyRStrip hxm)
          exact ⟨p1, p2⟩

/-- C6 counterexample: the claimed round-trip fails when the embedded JSON
object contains `//` inside a string value. `json.loads` accepts the raw
object (a key `a` mapped to the string `x//y`), but
`extract_json_from_llm_response` applied to the fenced form first runs the
line-comment regex, which deletes from the `//` to the end of the line and
leaves unparsable text, so the call raises (`none`). -/
theorem c6_extract_json_round_trip_counterexample :
    jsonLoads ['{', '"', 'a', '"', ':', ' ', '"', 'x', '/', '/', 'y', '"', '}']
      = some (JsonVal.obj [(['a'], JsonVal.str ['x', '/', '/', 'y'])]) ∧
    extract_json_from_llm_response
        ("```json\n".toList
          ++ (['{', '"', 'a', '"', ':', ' ', '"', 'x', '/', '/', 'y', '"', '}']
            ++ "\n```".toList))
      = none :=
  ⟨rfl, rfl⟩

/-- C6 (amended): on a response of the form
`preamble ++ "```json\n" ++ j ++ "\n```" ++ trailing` with `j` a
brace-delimited JSON text, the round-trip
`extract_json_from_llm_response = json.loads ∘ embedded-text` does hold under
side conditions that keep the text surgery away from the payload: the
preamble does not start with whitespace or a backtick and contains no `{`,
the trailing text contains no `}`, `]` or backtick, and `j` contains no `//`
or `/*` (otherwise the comment-stripping regexes can corrupt string values,
and stray closing brackets in the trailing text widen the slice). -/
theorem c6_extract_json_round_trip (pre mid trail : List Char)
    (hpre : ∀ c cs, pre = c :: cs → isPySpace c = false ∧ c ≠ backtickChar)
    (hpreB : ∀ c ∈ pre, c ≠ '{')
    (htrail : ∀ c ∈ trail, c ≠ '}' ∧ c ≠ ']' ∧ c ≠ backtickChar)
    (hline : hasSubPair '/' '/' ('{' :: (mid ++ ['}'])) = false)
    (hblock : hasSubPair '/' '*' ('{' :: (mid ++ ['}'])) = false) :
    extract_json_from_llm_response
        (pre ++ ("```json\n".toList ++ (('{' :: (mid ++ ['}'])) ++ ("\n```".toList ++ trail))))
      = jsonLoads ('{' :: (mid ++ ['}'])) := by
  rw [extract_json_from_llm_response,
    extractJsonText_fenced pre mid trail hpre hpreB htrail hline hblock]

/-- C6 amended-claim witness: the round-trip at a concrete preamble, JSON
object and trailing text. -/
theorem c6_extract_json_round_trip_witness :
    extract_json_from_llm_response
        (('H' :: "ere is the plan:\n".toList)
          ++ ("```json\n".toList
            ++ (('{' :: ("\"a\": 1".toList ++ ['}'])) ++ ("\n```".toList ++ "\nDone.".toList))))
      = jsonLoads ('{' :: ("\"a\": 1".toList ++ ['}'])) :=
  c6_extract_json_round_trip ('H' :: "ere is the plan:\n".toList)
    ("\"a\": 1".toList) ("\nDone.".toList)
    (by intro c cs h; cases h; exact ⟨by decide, by decide⟩)
    (by decide) (by decide) (by decide) (by decide)
